import Mathlib

/-!
# Door closer (ESP32 + L298N): timed actuator sequencer and command intake

Shallow embedding of `src/closer/closer.cpp`.

* The global variables of the sketch and the levels of the two H-bridge
  control pins form the record `Ctl`; every `digitalWrite` is also appended to
  a chronological log `writes`, so that "which pins were written" is
  observable.
* `millis()` is an `unsigned long` (32 bit on the ESP32).  Every function that
  reads the clock takes the value read as its argument `now`; the difference of
  two clock values is the unsigned difference `ulSub` (modulo `2^32`).
* Serial output is not modelled.
-/

namespace DoorCloser

/-! ## Data model -/

/-- Number of values of an `unsigned long` on the ESP32 (32 bit). -/
def ULONG_MOD : Nat := 4294967296

/-- The value `millis()` returns at real time `T` (milliseconds since boot):
the 32-bit counter wraps around. -/
def millis (T : Nat) : Nat := T % ULONG_MOD

/-- Unsigned 32-bit subtraction `a - b` of two `unsigned long` values. -/
def ulSub (a b : Nat) : Nat := (a % ULONG_MOD + (ULONG_MOD - b % ULONG_MOD)) % ULONG_MOD

/-- Pin level `LOW`. -/
abbrev LOW : Bool := false

/-- Pin level `HIGH`. -/
abbrev HIGH : Bool := true

/-- L298N IN1 (the source labels it Forward/Extend). -/
abbrev IN1_PIN : Nat := 25

/-- L298N IN2 (the source labels it Reverse/Retract). -/
abbrev IN2_PIN : Nat := 26

/-- The global variables of the sketch, the levels of the two control pins and
the log of all pin writes (oldest first). -/
structure Ctl where
  lastActuatorUpdate : Nat
  isDoorClosing : Bool
  extending : Bool
  doorCloseStartTime : Nat
  isInitialized : Bool
  initStartTime : Nat
  in1 : Bool
  in2 : Bool
  writes : List (Nat × Bool)
  deriving DecidableEq, Repr

/-- The globals as initialised at program start (lines 28-33); both pins low,
nothing written yet. -/
def boot : Ctl :=
  { lastActuatorUpdate := 0, isDoorClosing := false, extending := false,
    doorCloseStartTime := 0, isInitialized := false, initStartTime := 0,
    in1 := LOW, in2 := LOW, writes := [] }

/-- The primitive `digitalWrite(pin, level)`: sets the level of the pin and
records the write. -/
def digitalWrite (pin : Nat) (level : Bool) (s : Ctl) : Ctl :=
  { s with
    in1 := if pin = IN1_PIN then level else s.in1
    in2 := if pin = IN2_PIN then level else s.in2
    writes := s.writes ++ [(pin, level)] }

/-- The pair of levels on the control lines `(IN1, IN2)`. -/
def lines (s : Ctl) : Bool × Bool := (s.in1, s.in2)

/-! ## The sequencer -/

/-- The function `setup()` (lines 35-77), with `now` the value of `millis()` at
line 73: stop the actuator, (connect to the network), then start the
initialisation sequence. -/
def setup (now : Nat) (s : Ctl) : Ctl :=
  let s1 := digitalWrite IN2_PIN LOW (digitalWrite IN1_PIN LOW s)
  let s2 := { s1 with isInitialized := false, initStartTime := now }
  digitalWrite IN2_PIN HIGH (digitalWrite IN1_PIN LOW s2)

/-- The function `startDoorClosing()` (lines 158-170), with `now` the value of
`millis()` at line 168. -/
def startDoorClosing (now : Nat) (s : Ctl) : Ctl :=
  if s.isInitialized = false then s
  else if s.isDoorClosing = true then s
  else { s with isDoorClosing := true, extending := true, doorCloseStartTime := now }

/-- The function `controlLinearActuator()` (lines 172-202), with `now` the value
of `millis()` at line 175. -/
def controlLinearActuator (now : Nat) (s : Ctl) : Ctl :=
  if s.isDoorClosing = false then s
  else
    let currentTime := now
    let elapsed := ulSub currentTime s.doorCloseStartTime
    if s.extending = true then
      let s1 := digitalWrite IN2_PIN HIGH (digitalWrite IN1_PIN LOW s)
      if elapsed ≥ 20000 then
        { s1 with extending := false, doorCloseStartTime := currentTime }
      else s1
    else
      let s1 := digitalWrite IN2_PIN LOW (digitalWrite IN1_PIN HIGH s)
      if elapsed ≥ 20000 then
        let s2 := digitalWrite IN2_PIN LOW (digitalWrite IN1_PIN LOW s1)
        { s2 with isDoorClosing := false }
      else s1

/-- The initialisation block of `loop()` (lines 81-98), guard included, with
`now` the value of `millis()` at line 82. -/
def initTick (now : Nat) (s : Ctl) : Ctl :=
  if s.isInitialized = false then
    let currentTime := now
    let elapsed := ulSub currentTime s.initStartTime
    let s1 := digitalWrite IN2_PIN LOW (digitalWrite IN1_PIN HIGH s)
    if elapsed ≥ 23000 then
      let s2 := digitalWrite IN2_PIN LOW (digitalWrite IN1_PIN LOW s1)
      { s2 with isInitialized := true }
    else s1
  else s

/-! ## Command intake -/

/-- The library test `String::endsWith`: `suffix` is a suffix of `line`. -/
def endsWith (line suffix : List Char) : Bool := suffix.isSuffixOf line

/-- The open-command token of line 137. -/
def openToken : List Char := ("GET /open").toList

/-- The test of lines 137-141 on the line accumulated so far: a line that ends
with the open-command token calls `startDoorClosing`.  (The test of lines
142-144 only prints.) -/
def checkOpen (now : Nat) (currentLine : List Char) (s : Ctl) : Ctl :=
  if endsWith currentLine openToken = true then startDoorClosing now s else s

/-- The body of `while (client.connected())` (lines 105-146) run over the
characters the client delivers before it disconnects; each character comes
with the value `millis()` has while it is handled.  `currentLine` is the line
accumulated so far.  The blank line that ends the request leaves the loop
(`break`); what follows it is never read. -/
def serveClient : List (Nat × Char) → List Char → Ctl → Ctl
  | [], _, s => s
  | (now, c) :: rest, currentLine, s =>
    if c = '\n' then
      if currentLine.length = 0 then s
      else serveClient rest [] (checkOpen now [] s)
    else if c ≠ '\r' then
      serveClient rest (currentLine ++ [c]) (checkOpen now (currentLine ++ [c]) s)
    else serveClient rest currentLine (checkOpen now currentLine s)

/-- A request line whose characters are all handled at clock value `now`, read
by a fresh client (`currentLine` starts empty). -/
def requestLine (now : Nat) (line : String) (s : Ctl) : Ctl :=
  serveClient (line.toList.map (fun c => (now, c))) [] s

/-- The inputs of one iteration of `loop()`: the clock value at line 82, the
characters of the client `server.accept()` returns (if any), and the clock
value at line 175. -/
structure LoopIn where
  tInit : Nat
  client : Option (List (Nat × Char))
  tCtl : Nat

/-- The function `loop()` (lines 79-154). -/
def loop (i : LoopIn) (s : Ctl) : Ctl :=
  if s.isInitialized = false then initTick i.tInit s
  else
    let s1 := match i.client with
      | some chars => serveClient chars [] s
      | none => s
    controlLinearActuator i.tCtl s1

/-! ## Phases -/

/-- The phases of the sequencer. -/
inductive Phase where
  | Initializing
  | Ready
  | ClosingRetract
  | ClosingReturn
  deriving DecidableEq, Repr

/-- The phase encoded by the flags, tested in the order the code tests them:
`isInitialized` (line 81), `isDoorClosing` (line 173), `extending` (line 178). -/
def phaseOf (s : Ctl) : Phase :=
  if s.isInitialized = false then Phase.Initializing
  else if s.isDoorClosing = false then Phase.Ready
  else if s.extending = true then Phase.ClosingRetract
  else Phase.ClosingReturn

/-- The edges `Initializing → Ready → ClosingRetract → ClosingReturn → Ready`. -/
def Phase.next : Phase → Phase
  | Phase.Initializing => Phase.Ready
  | Phase.Ready => Phase.ClosingRetract
  | Phase.ClosingRetract => Phase.ClosingReturn
  | Phase.ClosingReturn => Phase.Ready

/-! ## Executions -/

/-- The operations that act on the sequencer. -/
inductive Op where
  | init (now : Nat)
  | control (now : Nat)
  | start (now : Nat)
  | request (chars : List (Nat × Char))
  | iteration (i : LoopIn)

/-- The effect of one operation. -/
def Op.apply : Op → Ctl → Ctl
  | Op.init now, s => initTick now s
  | Op.control now, s => controlLinearActuator now s
  | Op.start now, s => startDoorClosing now s
  | Op.request chars, s => serveClient chars [] s
  | Op.iteration i, s => loop i s

/-- Run a sequence of operations, first to last. -/
def run : List Op → Ctl → Ctl
  | [], s => s
  | op :: ops, s => run ops (op.apply s)

/-- The states reachable from power-on: `setup` followed by operations. -/
def Reachable (s : Ctl) : Prop := ∃ now0 ops, s = run ops (setup now0 boot)

/-- One complete closing cycle triggered at real time `t0`, polled at the two
phase boundaries. -/
def fullCycle (t0 : Nat) (s : Ctl) : Ctl :=
  controlLinearActuator (millis (t0 + 40000))
    (controlLinearActuator (millis (t0 + 20000)) (startDoorClosing (millis t0) s))

/-- Several complete closing cycles, triggered at the given real times. -/
def cycles : List Nat → Ctl → Ctl
  | [], s => s
  | t0 :: ts, s => cycles ts (fullCycle t0 s)

/-- Calls of `controlLinearActuator` at the given real times, first to last. -/
def ticks : List Nat → Ctl → Ctl
  | [], s => s
  | T :: Ts, s => ticks Ts (controlLinearActuator (millis T) s)

/-- One iteration of `loop()` described by real time: `T` is the real time (ms
since boot) at which line 82 reads the clock. -/
structure Iteration where
  T : Nat
  client : Option (List (Nat × Char))
  tCtl : Nat

/-- The inputs `loop()` sees in an iteration. -/
def Iteration.input (it : Iteration) : LoopIn :=
  { tInit := millis it.T, client := it.client, tCtl := it.tCtl }

/-- Consecutive iterations of `loop()`, first to last. -/
def iterate : List Iteration → Ctl → Ctl
  | [], s => s
  | it :: its, s => iterate its (loop it.input s)

/-- What can happen while a closing cycle runs: a call of
`controlLinearActuator` at real time `T`, a call of `startDoorClosing` or a
client, the latter two at arbitrary clock values. -/
inductive Event where
  | tick (T : Nat)
  | start (now : Nat)
  | request (chars : List (Nat × Char))

/-- The operation an event performs. -/
def Event.op : Event → Op
  | Event.tick T => Op.control (millis T)
  | Event.start now => Op.start now
  | Event.request chars => Op.request chars

/-- The real times of the ticks among the events, in order. -/
def tickTimes : List Event → List Nat
  | [] => []
  | Event.tick T :: evs => T :: tickTimes evs
  | Event.start _ :: evs => tickTimes evs
  | Event.request _ :: evs => tickTimes evs

/-- Run a sequence of events, first to last. -/
def runEvents : List Event → Ctl → Ctl
  | [], s => s
  | e :: evs, s => runEvents evs (e.op.apply s)

/-! ## Pin levels write by write -/

/-- The levels of `(IN1, IN2)` after one more `digitalWrite`. -/
def writePin (p : Bool × Bool) (w : Nat × Bool) : Bool × Bool :=
  (if w.1 = IN1_PIN then w.2 else p.1, if w.1 = IN2_PIN then w.2 else p.2)

/-- The levels of `(IN1, IN2)` after each individual write of a log, starting
from the levels `p`. -/
def levelsAfterEachWrite : Bool × Bool → List (Nat × Bool) → List (Bool × Bool)
  | _, [] => []
  | p, w :: ws => writePin p w :: levelsAfterEachWrite (writePin p w) ws

/-- Consecutive iterations of `loop()` on the inputs given, first to last. -/
def loops : List LoopIn → Ctl → Ctl
  | [], s => s
  | i :: is, s => loops is (loop i s)

/-! ## Calls of `startDoorClosing` made for a client -/

/-- The call the test of lines 137-141 makes on the line accumulated so far:
the clock value of the call of `startDoorClosing`, if the line ends with the
open-command token. -/
def openCallAt (now : Nat) (currentLine : List Char) : List Nat :=
  if endsWith currentLine openToken = true then [now] else []

/-- The calls of `startDoorClosing` the body of `while (client.connected())`
(lines 105-146) makes over the characters of a client, as the clock values of
the calls in order: the same traversal as `serveClient`. -/
def openCallTimes : List (Nat × Char) → List Char → List Nat
  | [], _ => []
  | (now, c) :: rest, currentLine =>
    if c = '\n' then
      if currentLine.length = 0 then []
      else openCallAt now [] ++ openCallTimes rest []
    else if c ≠ '\r' then
      openCallAt now (currentLine ++ [c]) ++ openCallTimes rest (currentLine ++ [c])
    else openCallAt now currentLine ++ openCallTimes rest currentLine

/-- The calls of `startDoorClosing` at the given clock values, first to last. -/
def startCalls : List Nat → Ctl → Ctl
  | [], s => s
  | now :: nows, s => startCalls nows (startDoorClosing now s)

/-- A sequence of characters with all carriage returns removed. -/
def withoutCR (l : List Char) : List Char := l.filter (fun c => decide (c ≠ '\r'))

/-! ## Invariants -/

/-- Where a closing cycle triggered at real time `t0` stands when the last
call of `controlLinearActuator` was at real time `L`, under polling of every
millisecond. -/
def CycleAt (t0 L : Nat) (u : Ctl) : Prop :=
  u.isInitialized = true ∧
  ((L < t0 + 20000 ∧ u.isDoorClosing = true ∧ u.extending = true ∧
      u.doorCloseStartTime = millis t0) ∨
   (t0 + 20000 ≤ L ∧ L < t0 + 40000 ∧ u.isDoorClosing = true ∧ u.extending = false ∧
      u.doorCloseStartTime = millis (t0 + 20000)) ∨
   (t0 + 40000 ≤ L ∧ u.isDoorClosing = false))

/-- A closing cycle triggered at real time `t0` that is still running when the
latest tick was at real time `L`: either the first stroke on the clock of `t0`,
or the second stroke on the clock of a real time `c` with
`t0 + 20000 ≤ c ≤ L`. -/
def StrokeAt (t0 L : Nat) (u : Ctl) : Prop :=
  u.isInitialized = true ∧ u.isDoorClosing = true ∧
  ((u.extending = true ∧ u.doorCloseStartTime = millis t0) ∨
   (u.extending = false ∧ ∃ c, t0 + 20000 ≤ c ∧ c ≤ L ∧ u.doorCloseStartTime = millis c))

/-- The flag combinations the code maintains: `isDoorClosing` only when
initialised, `extending` only while closing. -/
def FlagsOk (s : Ctl) : Prop :=
  (s.isDoorClosing = true → s.isInitialized = true) ∧
  (s.extending = true → s.isDoorClosing = true)

/-- The drive matches the phase: the flags are well formed, the lines are at
Stop exactly in Ready, and never both high. -/
def DriveMatchesPhase (s : Ctl) : Prop :=
  FlagsOk s ∧ (lines s = (LOW, LOW) ↔ phaseOf s = Phase.Ready) ∧ lines s ≠ (HIGH, HIGH)

/-! ## Concrete executions of the sketch -/

/-- The state `setup` establishes when the clock reads 0. -/
def initState : Ctl := setup 0 boot

/-- Initialisation finished by the iteration of `loop` at clock value 23 000. -/
def readyState : Ctl := loop { tInit := 23000, client := none, tCtl := 23000 } initState

/-- A complete open request, handled at clock value 24 000. -/
def openRequest : List (Nat × Char) :=
  ("GET /open HTTP/1.1\r\n\r\n").toList.map (fun c => (24000, c))

/-- The iteration of `loop` at clock value 24 000 serves the open request: the
closing cycle starts. -/
def retractState : Ctl :=
  loop { tInit := 24000, client := some openRequest, tCtl := 24000 } readyState

/-- The iteration of `loop` at clock value 44 000, 20 000 ms into the cycle. -/
def returnState : Ctl := loop { tInit := 44000, client := none, tCtl := 44000 } retractState

/-- An iteration of `loop` at real time 10 ms, no client. -/
def earlyIteration : Iteration := { T := 10, client := none, tCtl := 10 }

/-- An iteration of `loop` at real time 23 000 ms, no client. -/
def lateIteration : Iteration := { T := 23000, client := none, tCtl := 23000 }

/-- A line without newline whose open-command token is interrupted by a
carriage return and followed by more text, handled at clock value 24 000. -/
def brokenOpenLine : List (Nat × Char) :=
  ("POST x GET /op\ren?y=1").toList.map (fun c => (24000, c))

/-- The opposite direction: each control line at the other level. -/
def opposite (p : Bool × Bool) : Bool × Bool := (!p.1, !p.2)

/-- The flags `(isInitialized, isDoorClosing, extending)`. -/
def flags (s : Ctl) : Bool × Bool × Bool := (s.isInitialized, s.isDoorClosing, s.extending)

/-- A clock value 6 ms before the 32-bit counter wraps. -/
def nearWrap : Nat := 4294967290

/-- An Initializing state whose initialisation started 6 ms before the clock
wraps: `setup` at clock value `nearWrap`. -/
def wrapInitState : Ctl := setup nearWrap boot

/-! ## Auxiliary facts -/

theorem ulSub_millis (T0 T : Nat) (h : T0 ≤ T) :
    ulSub (millis T) (millis T0) = (T - T0) % ULONG_MOD := by
  unfold ulSub millis ULONG_MOD
  omega

theorem ulSub_millis_small (T0 T : Nat) (h : T0 ≤ T) (hlt : T - T0 < ULONG_MOD) :
    ulSub (millis T) (millis T0) = T - T0 := by
  rw [ulSub_millis T0 T h, Nat.mod_eq_of_lt hlt]

theorem phaseOf_eq_ready (s : Ctl) :
    phaseOf s = Phase.Ready ↔ s.isInitialized = true ∧ s.isDoorClosing = false := by
  unfold phaseOf
  cases s.isInitialized <;> cases s.isDoorClosing <;> cases s.extending <;> simp

theorem phaseOf_eq_initializing (s : Ctl) :
    phaseOf s = Phase.Initializing ↔ s.isInitialized = false := by
  unfold phaseOf
  cases s.isInitialized <;> cases s.isDoorClosing <;> cases s.extending <;> simp

theorem phaseOf_eq_retract (s : Ctl) :
    phaseOf s = Phase.ClosingRetract ↔
      s.isInitialized = true ∧ s.isDoorClosing = true ∧ s.extending = true := by
  unfold phaseOf
  cases s.isInitialized <;> cases s.isDoorClosing <;> cases s.extending <;> simp

theorem phaseOf_eq_return (s : Ctl) :
    phaseOf s = Phase.ClosingReturn ↔
      s.isInitialized = true ∧ s.isDoorClosing = true ∧ s.extending = false := by
  unfold phaseOf
  cases s.isInitialized <;> cases s.isDoorClosing <;> cases s.extending <;> simp

theorem fullCycle_ready (t0 : Nat) (s : Ctl)
    (h : s.isInitialized = true ∧ s.isDoorClosing = false) :
    (fullCycle t0 s).isInitialized = true ∧ (fullCycle t0 s).isDoorClosing = false := by
  obtain ⟨h1, h2⟩ := h
  have e1 : ulSub (millis (t0 + 20000)) (millis t0) = 20000 := by
    unfold ulSub millis ULONG_MOD; omega
  have e2 : ulSub (millis (t0 + 40000)) (millis (t0 + 20000)) = 20000 := by
    unfold ulSub millis ULONG_MOD; omega
  simp [fullCycle, startDoorClosing, controlLinearActuator, digitalWrite, h1, h2, e1, e2]

theorem cycles_ready (starts : List Nat) (s : Ctl)
    (h : s.isInitialized = true ∧ s.isDoorClosing = false) :
    (cycles starts s).isInitialized = true ∧ (cycles starts s).isDoorClosing = false := by
  induction starts generalizing s with
  | nil => exact h
  | cons t0 ts ih => exact ih _ (fullCycle_ready t0 s h)

theorem controlLinearActuator_isInitialized (now : Nat) (s : Ctl) :
    (controlLinearActuator now s).isInitialized = s.isInitialized := by
  simp only [controlLinearActuator]
  split_ifs <;> rfl

theorem controlLinearActuator_initStartTime (now : Nat) (s : Ctl) :
    (controlLinearActuator now s).initStartTime = s.initStartTime := by
  simp only [controlLinearActuator]
  split_ifs <;> rfl

theorem startDoorClosing_isInitialized (now : Nat) (s : Ctl) :
    (startDoorClosing now s).isInitialized = s.isInitialized := by
  simp only [startDoorClosing]
  split_ifs <;> rfl

theorem startDoorClosing_initStartTime (now : Nat) (s : Ctl) :
    (startDoorClosing now s).initStartTime = s.initStartTime := by
  simp only [startDoorClosing]
  split_ifs <;> rfl

theorem checkOpen_isInitialized (now : Nat) (cur : List Char) (s : Ctl) :
    (checkOpen now cur s).isInitialized = s.isInitialized := by
  simp only [checkOpen]
  split_ifs <;> first | rfl | exact startDoorClosing_isInitialized now s

theorem checkOpen_initStartTime (now : Nat) (cur : List Char) (s : Ctl) :
    (checkOpen now cur s).initStartTime = s.initStartTime := by
  simp only [checkOpen]
  split_ifs <;> first | rfl | exact startDoorClosing_initStartTime now s

theorem serveClient_isInitialized (chars : List (Nat × Char)) (cur : List Char) (s : Ctl) :
    (serveClient chars cur s).isInitialized = s.isInitialized := by
  induction chars generalizing cur s with
  | nil => rfl
  | cons p rest ih =>
    obtain ⟨now, c⟩ := p
    simp only [serveClient]
    split_ifs <;> first | rfl | rw [ih, checkOpen_isInitialized]

theorem serveClient_initStartTime (chars : List (Nat × Char)) (cur : List Char) (s : Ctl) :
    (serveClient chars cur s).initStartTime = s.initStartTime := by
  induction chars generalizing cur s with
  | nil => rfl
  | cons p rest ih =>
    obtain ⟨now, c⟩ := p
    simp only [serveClient]
    split_ifs <;> first | rfl | rw [ih, checkOpen_initStartTime]

theorem initTick_initStartTime (now : Nat) (s : Ctl) :
    (initTick now s).initStartTime = s.initStartTime := by
  simp only [initTick]
  split_ifs <;> rfl

theorem initTick_keeps_initialized (now : Nat) (s : Ctl) (h : s.isInitialized = true) :
    (initTick now s).isInitialized = true := by
  simp [initTick, h]

theorem loop_initStartTime (i : LoopIn) (s : Ctl) :
    (loop i s).initStartTime = s.initStartTime := by
  simp only [loop]
  split_ifs
  · exact initTick_initStartTime _ _
  · rw [controlLinearActuator_initStartTime]
    cases i.client with
    | none => rfl
    | some chars => exact serveClient_initStartTime _ _ _

theorem loop_keeps_initialized (i : LoopIn) (s : Ctl) (h : s.isInitialized = true) :
    (loop i s).isInitialized = true := by
  simp only [loop, h]
  rw [if_neg (by simp), controlLinearActuator_isInitialized]
  cases i.client with
  | none => exact h
  | some chars => simpa [serveClient_isInitialized] using h

theorem apply_keeps_initialized (op : Op) (s : Ctl) (h : s.isInitialized = true) :
    (op.apply s).isInitialized = true := by
  cases op with
  | init now => exact initTick_keeps_initialized now s h
  | control now => simpa [Op.apply, controlLinearActuator_isInitialized] using h
  | start now => simpa [Op.apply, startDoorClosing_isInitialized] using h
  | request chars => simpa [Op.apply, serveClient_isInitialized] using h
  | iteration i => exact loop_keeps_initialized i s h

theorem run_keeps_initialized (ops : List Op) (s : Ctl) (h : s.isInitialized = true) :
    (run ops s).isInitialized = true := by
  induction ops generalizing s with
  | nil => exact h
  | cons op ops ih => exact ih _ (apply_keeps_initialized op s h)

theorem iterate_append (xs ys : List Iteration) (s : Ctl) :
    iterate (xs ++ ys) s = iterate ys (iterate xs s) := by
  induction xs generalizing s with
  | nil => rfl
  | cons x xs ih => exact ih _

theorem iterate_initStartTime (its : List Iteration) (s : Ctl) :
    (iterate its s).initStartTime = s.initStartTime := by
  induction its generalizing s with
  | nil => rfl
  | cons x xs ih => rw [iterate, ih, loop_initStartTime]

theorem iterate_initializing (now0 : Nat) (its : List Iteration) (s : Ctl)
    (h1 : s.isInitialized = false) (h2 : s.initStartTime = millis now0)
    (h3 : s.isDoorClosing = false)
    (h : ∀ j ∈ its, now0 ≤ j.T ∧ j.T - now0 < 23000) :
    (iterate its s).isInitialized = false ∧ (iterate its s).isDoorClosing = false := by
  induction its generalizing s with
  | nil => exact ⟨h1, h3⟩
  | cons x xs ih =>
    obtain ⟨hx1, hx2⟩ := h x (List.mem_cons_self _ _)
    have e : ulSub (millis x.T) (millis now0) = x.T - now0 :=
      ulSub_millis_small now0 x.T hx1 (by unfold ULONG_MOD; omega)
    have hlt : ¬ (23000 ≤ ulSub (millis x.T) (millis now0)) := by omega
    refine ih _ ?_ ?_ ?_ (fun j hj => h j (List.mem_cons_of_mem _ hj))
    · simp [loop, initTick, Iteration.input, h1, h2, hlt, digitalWrite]
    · rw [loop_initStartTime, h2]
    · simp [loop, initTick, Iteration.input, h1, h2, hlt, digitalWrite, h3]

theorem loop_finishes_init (now0 : Nat) (it : Iteration) (s : Ctl)
    (h2 : s.initStartTime = millis now0) (h0 : now0 ≤ it.T)
    (hge : 23000 ≤ it.T - now0) (hwrap : it.T - now0 < ULONG_MOD) :
    (loop it.input s).isInitialized = true := by
  cases h1 : s.isInitialized with
  | true => exact loop_keeps_initialized _ _ h1
  | false =>
    have e : ulSub (millis it.T) (millis now0) = it.T - now0 :=
      ulSub_millis_small now0 it.T h0 hwrap
    simp [loop, initTick, Iteration.input, h1, h2, e, hge, digitalWrite]

theorem cycleAt_tick (t0 L T : Nat) (u : Ctl) (hL : t0 ≤ L) (hstep : T = L ∨ T = L + 1)
    (h : CycleAt t0 L u) : CycleAt t0 T (controlLinearActuator (millis T) u) := by
  obtain ⟨hi, h⟩ := h
  refine ⟨by rw [controlLinearActuator_isInitialized]; exact hi, ?_⟩
  rcases h with ⟨hlt, hc, he, hk⟩ | ⟨hge, hlt, hc, he, hk⟩ | ⟨hge, hc⟩
  · have e : ulSub (millis T) (millis t0) = T - t0 :=
      ulSub_millis_small t0 T (by omega) (by unfold ULONG_MOD; omega)
    by_cases hT : T < t0 + 20000
    · have hn : ¬ (20000 ≤ T - t0) := by omega
      left
      simp [controlLinearActuator, hc, he, hk, e, hn, digitalWrite, hT]
    · have hT2 : T = t0 + 20000 := by omega
      subst hT2
      right; left
      simp [controlLinearActuator, hc, he, hk, e, digitalWrite]
  · have e : ulSub (millis T) (millis (t0 + 20000)) = T - (t0 + 20000) :=
      ulSub_millis_small (t0 + 20000) T (by omega) (by unfold ULONG_MOD; omega)
    by_cases hT : T < t0 + 40000
    · have hn : ¬ (20000 ≤ T - (t0 + 20000)) := by omega
      have hT3 : t0 + 20000 ≤ T := by omega
      right; left
      simp [controlLinearActuator, hc, he, hk, e, hn, digitalWrite, hT, hT3]
    · have hn : 20000 ≤ T - (t0 + 20000) := by omega
      have hT2 : t0 + 40000 ≤ T := by omega
      right; right
      simp [controlLinearActuator, hc, he, hk, e, hn, digitalWrite, hT2]
  · right; right
    refine ⟨by omega, ?_⟩
    simp [controlLinearActuator, hc]

theorem cycleAt_ticks (t0 : Nat) (Ts : List Nat) (L T : Nat) (u : Ctl) (hL : t0 ≤ L)
    (h : CycleAt t0 L u)
    (hpoll : List.Chain (fun a b => b = a ∨ b = a + 1) L (Ts ++ [T])) :
    CycleAt t0 T (ticks (Ts ++ [T]) u) := by
  induction Ts generalizing L u with
  | nil =>
    rw [List.nil_append, List.chain_cons] at hpoll
    exact cycleAt_tick t0 L T u hL hpoll.1 h
  | cons a Ts ih =>
    rw [List.cons_append, List.chain_cons] at hpoll
    have ha : t0 ≤ a := by
      rcases hpoll.1 with e | e <;> omega
    exact ih a _ ha (cycleAt_tick t0 L a u hL hpoll.1 h) hpoll.2

theorem requestLine_open (now : Nat) (s : Ctl) :
    requestLine now "GET /open HTTP/1.1" s = startDoorClosing now s := rfl

theorem startDoorClosing_of_not_ready (now : Nat) (s : Ctl)
    (h : s.isInitialized = false ∨ s.isDoorClosing = true) : startDoorClosing now s = s := by
  unfold startDoorClosing
  rcases h with h | h <;> simp [h]

theorem serveClient_of_not_ready (chars : List (Nat × Char)) (cur : List Char) (s : Ctl)
    (h : s.isInitialized = false ∨ s.isDoorClosing = true) : serveClient chars cur s = s := by
  induction chars generalizing cur with
  | nil => rfl
  | cons p rest ih =>
    obtain ⟨now, c⟩ := p
    have e : ∀ l, checkOpen now l s = s := fun l => by
      simp only [checkOpen, startDoorClosing_of_not_ready now s h, ite_self]
    simp only [serveClient, e]
    split_ifs <;> first | rfl | exact ih _

theorem ticks_first_stroke (t : Nat) (Ts : List Nat) (u : Ctl)
    (hT : ∀ T ∈ Ts, t ≤ T ∧ T < t + 20000)
    (hc : u.isDoorClosing = true) (he : u.extending = true)
    (hk : u.doorCloseStartTime = millis t) :
    (ticks Ts u).isInitialized = u.isInitialized ∧ (ticks Ts u).isDoorClosing = true ∧
    (ticks Ts u).extending = true ∧ (ticks Ts u).doorCloseStartTime = millis t := by
  induction Ts generalizing u with
  | nil => exact ⟨rfl, hc, he, hk⟩
  | cons T Ts ih =>
    obtain ⟨h1, h2⟩ := hT T (List.mem_cons_self _ _)
    have e : ulSub (millis T) (millis t) = T - t :=
      ulSub_millis_small t T h1 (by unfold ULONG_MOD; omega)
    have hn : ¬ (20000 ≤ T - t) := by omega
    have step := ih (controlLinearActuator (millis T) u)
      (fun T1 hT1 => hT T1 (List.mem_cons_of_mem _ hT1))
      (by simp [controlLinearActuator, hc, he, hk, e, hn, digitalWrite])
      (by simp [controlLinearActuator, hc, he, hk, e, hn, digitalWrite])
      (by simp [controlLinearActuator, hc, he, hk, e, hn, digitalWrite])
    rw [controlLinearActuator_isInitialized] at step
    exact step

theorem strokeAt_tick (t0 L T : Nat) (u : Ctl) (hL : t0 ≤ L) (hLT : L ≤ T)
    (hT : T < t0 + 40000) (h : StrokeAt t0 L u) :
    StrokeAt t0 T (controlLinearActuator (millis T) u) := by
  obtain ⟨hi, hc, h⟩ := h
  refine ⟨by rw [controlLinearActuator_isInitialized]; exact hi, ?_⟩
  rcases h with ⟨he, hk⟩ | ⟨he, c, hc1, hc2, hk⟩
  · have e : ulSub (millis T) (millis t0) = T - t0 :=
      ulSub_millis_small t0 T (by omega) (by unfold ULONG_MOD; omega)
    by_cases hge : 20000 ≤ T - t0
    · refine ⟨?_, Or.inr ⟨?_, T, by omega, le_refl _, ?_⟩⟩ <;>
        simp [controlLinearActuator, hc, he, hk, e, hge, digitalWrite]
    · refine ⟨?_, Or.inl ⟨?_, ?_⟩⟩ <;>
        simp [controlLinearActuator, hc, he, hk, e, hge, digitalWrite]
  · have e : ulSub (millis T) (millis c) = T - c :=
      ulSub_millis_small c T (by omega) (by unfold ULONG_MOD; omega)
    have hn : ¬ (20000 ≤ T - c) := by omega
    refine ⟨?_, Or.inr ⟨?_, c, hc1, by omega, ?_⟩⟩ <;>
      simp [controlLinearActuator, hc, he, hk, e, hn, digitalWrite]

theorem strokeAt_events (t0 : Nat) (evs : List Event) (L : Nat) (u : Ctl) (hL : t0 ≤ L)
    (hmono : List.Pairwise (fun a b => a ≤ b) (L :: tickTimes evs))
    (hT : ∀ T ∈ tickTimes evs, T < t0 + 40000) (h : StrokeAt t0 L u) :
    ∃ L1, (L1 = L ∨ L1 ∈ tickTimes evs) ∧ StrokeAt t0 L1 (runEvents evs u) := by
  induction evs generalizing L u with
  | nil => exact ⟨L, Or.inl rfl, h⟩
  | cons e evs ih =>
    cases e with
    | tick T =>
      simp only [tickTimes] at hmono hT
      have hLT : L ≤ T := (List.pairwise_cons.1 hmono).1 T (List.mem_cons_self _ _)
      have hT1 : T < t0 + 40000 := hT T (List.mem_cons_self _ _)
      obtain ⟨L1, hL1, hs⟩ := ih T (controlLinearActuator (millis T) u) (by omega)
        (List.pairwise_cons.1 hmono).2 (fun T2 h2 => hT T2 (List.mem_cons_of_mem _ h2))
        (strokeAt_tick t0 L T u hL hLT hT1 h)
      refine ⟨L1, Or.inr ?_, hs⟩
      simp only [tickTimes]
      rcases hL1 with hL1 | hL1
      · exact hL1 ▸ List.mem_cons_self _ _
      · exact List.mem_cons_of_mem _ hL1
    | start now =>
      simp only [tickTimes] at hmono hT
      have e : startDoorClosing now u = u := startDoorClosing_of_not_ready now u (Or.inr h.2.1)
      simpa [runEvents, Event.op, Op.apply, e, tickTimes] using ih L u hL hmono hT h
    | request chars =>
      simp only [tickTimes] at hmono hT
      have e : serveClient chars [] u = u := serveClient_of_not_ready chars [] u (Or.inr h.2.1)
      simpa [runEvents, Event.op, Op.apply, e, tickTimes] using ih L u hL hmono hT h

theorem startDoorClosing_flagsOk (now : Nat) (s : Ctl) (h : FlagsOk s) :
    FlagsOk (startDoorClosing now s) := by
  obtain ⟨f1, f2⟩ := h
  unfold FlagsOk startDoorClosing
  cases hi : s.isInitialized <;> cases hc : s.isDoorClosing <;> cases he : s.extending <;>
    simp_all

theorem controlLinearActuator_flagsOk (now : Nat) (s : Ctl) (h : FlagsOk s) :
    FlagsOk (controlLinearActuator now s) := by
  obtain ⟨f1, f2⟩ := h
  simp only [FlagsOk, controlLinearActuator]
  split_ifs <;> cases hi : s.isInitialized <;> cases hc : s.isDoorClosing <;>
    cases he : s.extending <;> simp_all [digitalWrite]

theorem initTick_flagsOk (now : Nat) (s : Ctl) (h : FlagsOk s) :
    FlagsOk (initTick now s) := by
  obtain ⟨f1, f2⟩ := h
  simp only [FlagsOk, initTick]
  split_ifs <;> cases hi : s.isInitialized <;> cases hc : s.isDoorClosing <;>
    cases he : s.extending <;> simp_all [digitalWrite]

theorem serveClient_flagsOk (chars : List (Nat × Char)) (cur : List Char) (s : Ctl)
    (h : FlagsOk s) : FlagsOk (serveClient chars cur s) := by
  induction chars generalizing cur s with
  | nil => exact h
  | cons p rest ih =>
    obtain ⟨now, c⟩ := p
    have e : ∀ l, FlagsOk (checkOpen now l s) := fun l => by
      simp only [checkOpen]
      split_ifs <;> first | exact h | exact startDoorClosing_flagsOk now s h
    simp only [serveClient]
    split_ifs <;> first | exact h | exact ih _ _ (e _)

theorem loop_flagsOk (i : LoopIn) (s : Ctl) (h : FlagsOk s) : FlagsOk (loop i s) := by
  simp only [loop]
  split_ifs
  · exact initTick_flagsOk _ _ h
  · apply controlLinearActuator_flagsOk
    cases i.client with
    | none => exact h
    | some chars => exact serveClient_flagsOk chars [] s h

theorem apply_flagsOk (op : Op) (s : Ctl) (h : FlagsOk s) : FlagsOk (op.apply s) := by
  cases op with
  | init now => exact initTick_flagsOk now s h
  | control now => exact controlLinearActuator_flagsOk now s h
  | start now => exact startDoorClosing_flagsOk now s h
  | request chars => exact serveClient_flagsOk chars [] s h
  | iteration i => exact loop_flagsOk i s h

theorem run_flagsOk (ops : List Op) (s : Ctl) (h : FlagsOk s) : FlagsOk (run ops s) := by
  induction ops generalizing s with
  | nil => exact h
  | cons op ops ih => exact ih _ (apply_flagsOk op s h)

theorem reachable_flagsOk (s : Ctl) (h : Reachable s) : FlagsOk s := by
  obtain ⟨now0, ops, rfl⟩ := h
  apply run_flagsOk
  simp [FlagsOk, setup, boot, digitalWrite]

theorem startDoorClosing_lines (now : Nat) (s : Ctl) :
    lines (startDoorClosing now s) = lines s ∧ (startDoorClosing now s).writes = s.writes := by
  simp only [startDoorClosing]
  split_ifs <;> exact ⟨rfl, rfl⟩

theorem checkOpen_lines (now : Nat) (cur : List Char) (s : Ctl) :
    lines (checkOpen now cur s) = lines s ∧ (checkOpen now cur s).writes = s.writes := by
  simp only [checkOpen]
  split_ifs <;> first | exact ⟨rfl, rfl⟩ | exact startDoorClosing_lines now s

theorem serveClient_lines (chars : List (Nat × Char)) (cur : List Char) (s : Ctl) :
    lines (serveClient chars cur s) = lines s ∧ (serveClient chars cur s).writes = s.writes := by
  induction chars generalizing cur s with
  | nil => exact ⟨rfl, rfl⟩
  | cons p rest ih =>
    obtain ⟨now, c⟩ := p
    simp only [serveClient]
    split_ifs <;>
      first
      | exact ⟨rfl, rfl⟩
      | exact ⟨(ih _ _).1.trans (checkOpen_lines now _ s).1,
          (ih _ _).2.trans (checkOpen_lines now _ s).2⟩

theorem initTick_not_both_high (now : Nat) (s : Ctl) (h : lines s ≠ (HIGH, HIGH)) :
    lines (initTick now s) ≠ (HIGH, HIGH) := by
  simp only [initTick]
  split_ifs <;> first | exact h | simp [lines, digitalWrite]

theorem controlLinearActuator_not_both_high (now : Nat) (s : Ctl)
    (h : lines s ≠ (HIGH, HIGH)) : lines (controlLinearActuator now s) ≠ (HIGH, HIGH) := by
  simp only [controlLinearActuator]
  split_ifs <;> first | exact h | simp [lines, digitalWrite]

theorem loop_not_both_high (i : LoopIn) (s : Ctl) (h : lines s ≠ (HIGH, HIGH)) :
    lines (loop i s) ≠ (HIGH, HIGH) := by
  simp only [loop]
  split_ifs
  · exact initTick_not_both_high _ _ h
  · apply controlLinearActuator_not_both_high
    cases i.client with
    | none => exact h
    | some chars => simpa [(serveClient_lines chars [] s).1] using h

theorem apply_not_both_high (op : Op) (s : Ctl) (h : lines s ≠ (HIGH, HIGH)) :
    lines (op.apply s) ≠ (HIGH, HIGH) := by
  cases op with
  | init now => exact initTick_not_both_high now s h
  | control now => exact controlLinearActuator_not_both_high now s h
  | start now => simpa [Op.apply, (startDoorClosing_lines now s).1] using h
  | request chars => simpa [Op.apply, (serveClient_lines chars [] s).1] using h
  | iteration i => exact loop_not_both_high i s h

theorem run_not_both_high (ops : List Op) (s : Ctl) (h : lines s ≠ (HIGH, HIGH)) :
    lines (run ops s) ≠ (HIGH, HIGH) := by
  induction ops generalizing s with
  | nil => exact h
  | cons op ops ih => exact ih _ (apply_not_both_high op s h)

theorem startCalls_append (xs ys : List Nat) (s : Ctl) :
    startCalls (xs ++ ys) s = startCalls ys (startCalls xs s) := by
  induction xs generalizing s with
  | nil => rfl
  | cons x xs ih => exact ih _

theorem checkOpen_eq_startCalls (now : Nat) (cur : List Char) (s : Ctl) :
    checkOpen now cur s = startCalls (openCallAt now cur) s := by
  simp only [checkOpen, openCallAt]
  split_ifs <;> rfl

theorem serveClient_eq_startCalls (chars : List (Nat × Char)) (cur : List Char) (s : Ctl) :
    serveClient chars cur s = startCalls (openCallTimes chars cur) s := by
  induction chars generalizing cur s with
  | nil => rfl
  | cons p rest ih =>
    obtain ⟨now, c⟩ := p
    simp only [serveClient, openCallTimes]
    split_ifs <;>
      first
      | rfl
      | rw [startCalls_append, ih, checkOpen_eq_startCalls]

theorem startCalls_of_not_ready (nows : List Nat) (s : Ctl)
    (h : s.isInitialized = false ∨ s.isDoorClosing = true) : startCalls nows s = s := by
  induction nows with
  | nil => rfl
  | cons now nows ih => rw [startCalls, startDoorClosing_of_not_ready now s h, ih]

theorem endsWith_iff (l tok : List Char) : endsWith l tok = true ↔ List.IsSuffix tok l := by
  unfold endsWith
  exact List.isSuffixOf_iff_suffix

theorem openToken_ne_nil : openToken ≠ [] := by decide

theorem withoutCR_cons (c : Char) (t : List Char) :
    withoutCR (c :: t) = withoutCR [c] ++ withoutCR t := by
  unfold withoutCR
  rw [← List.filter_append]
  rfl

theorem split_head_step (P : List Char → Prop) (c : Char) (R cur : List Char) :
    (∃ t1 t2, c :: R = t1 ++ t2 ∧ t1 ≠ [] ∧ P (cur ++ withoutCR t1)) ↔
      (P (cur ++ withoutCR [c]) ∨
        ∃ t1 t2, R = t1 ++ t2 ∧ t1 ≠ [] ∧ P ((cur ++ withoutCR [c]) ++ withoutCR t1)) := by
  constructor
  · rintro ⟨t1, t2, e, hne, hP⟩
    cases t1 with
    | nil => exact absurd rfl hne
    | cons a t1 =>
      rw [List.cons_append, List.cons.injEq] at e
      obtain ⟨rfl, rfl⟩ := e
      cases t1 with
      | nil => exact Or.inl hP
      | cons b t1 =>
        right
        refine ⟨b :: t1, t2, rfl, by simp, ?_⟩
        rw [List.append_assoc, ← withoutCR_cons]
        exact hP
  · rintro (hP | ⟨t1, t2, rfl, hne, hP⟩)
    · exact ⟨[c], R, rfl, by simp, hP⟩
    · refine ⟨c :: t1, t2, rfl, by simp, ?_⟩
      rw [withoutCR_cons, ← List.append_assoc]
      exact hP

theorem openCallAt_ne_nil (now : Nat) (cur : List Char) :
    openCallAt now cur ≠ [] ↔ endsWith cur openToken = true := by
  unfold openCallAt
  split_ifs with h <;> simp [h]

theorem openCallTimes_ne_nil_iff (chars : List (Nat × Char)) (cur : List Char)
    (h : ∀ p ∈ chars, p.2 ≠ '\n') :
    openCallTimes chars cur ≠ [] ↔
      ∃ t1 t2, chars.map Prod.snd = t1 ++ t2 ∧ t1 ≠ [] ∧
        endsWith (cur ++ withoutCR t1) openToken = true := by
  induction chars generalizing cur with
  | nil => simp [openCallTimes]
  | cons p rest ih =>
    obtain ⟨now, c⟩ := p
    have hc : c ≠ '\n' := h (now, c) (List.mem_cons_self _ _)
    have hrest : ∀ q ∈ rest, q.2 ≠ '\n' := fun q hq => h q (List.mem_cons_of_mem _ hq)
    have hcur : openCallTimes ((now, c) :: rest) cur
        = openCallAt now (cur ++ withoutCR [c])
          ++ openCallTimes rest (cur ++ withoutCR [c]) := by
      simp only [openCallTimes, if_neg hc]
      by_cases hr : c = '\r'
      · simp [hr, withoutCR]
      · simp [hr, withoutCR]
    rw [hcur, List.map_cons,
      split_head_step (fun l => endsWith l openToken = true) c (rest.map Prod.snd) cur,
      ← ih (cur ++ withoutCR [c]) hrest, ← openCallAt_ne_nil now]
    simp only [ne_eq, List.append_eq_nil, not_and_or]

theorem suffix_of_part_iff_infix (text : List Char) :
    (∃ t1 t2, text = t1 ++ t2 ∧ t1 ≠ [] ∧ endsWith ([] ++ withoutCR t1) openToken = true) ↔
      List.IsInfix openToken (withoutCR text) := by
  constructor
  · rintro ⟨t1, t2, rfl, -, hs⟩
    rw [List.nil_append, endsWith_iff] at hs
    obtain ⟨a, ha⟩ := hs
    refine ⟨a, withoutCR t2, ?_⟩
    rw [ha]
    unfold withoutCR
    rw [List.filter_append]
  · rintro ⟨a, b, hab⟩
    unfold withoutCR at hab
    obtain ⟨l1, l2, rfl, h1, -⟩ := List.filter_eq_append_iff.1 hab.symm
    refine ⟨l1, l2, rfl, ?_, ?_⟩
    · rintro rfl
      simp at h1
      exact openToken_ne_nil h1.2
    · rw [List.nil_append, endsWith_iff]
      exact ⟨a, h1.symm⟩

theorem startDoorClosing_result_not_ready (now : Nat) (s : Ctl) :
    (startDoorClosing now s).isInitialized = false ∨
      (startDoorClosing now s).isDoorClosing = true := by
  simp only [startDoorClosing]
  split_ifs with h1 h2
  · exact Or.inl h1
  · exact Or.inr h2
  · exact Or.inr rfl

theorem startCalls_cons (now : Nat) (nows : List Nat) (s : Ctl) :
    startCalls (now :: nows) s = startDoorClosing now s := by
  rw [startCalls, startCalls_of_not_ready nows _ (startDoorClosing_result_not_ready now s)]

theorem openCallTimes_mem (chars : List (Nat × Char)) (cur : List Char) (t : Nat)
    (ht : t ∈ openCallTimes chars cur) : ∃ p ∈ chars, p.1 = t := by
  induction chars generalizing cur with
  | nil => simp [openCallTimes] at ht
  | cons p rest ih =>
    obtain ⟨now, c⟩ := p
    have key : ∀ l1 l2 : List Char, t ∈ openCallAt now l1 ++ openCallTimes rest l2 →
        ∃ q ∈ (now, c) :: rest, q.1 = t := by
      intro l1 l2 hm
      rcases List.mem_append.1 hm with hm | hm
      · refine ⟨(now, c), List.mem_cons_self _ _, ?_⟩
        unfold openCallAt at hm
        split_ifs at hm
        · exact (List.mem_singleton.1 hm).symm
        · simp at hm
      · obtain ⟨q, hq, e⟩ := ih l2 hm
        exact ⟨q, List.mem_cons_of_mem _ hq, e⟩
    simp only [openCallTimes] at ht
    split_ifs at ht
    · simp at ht
    · exact key _ _ ht
    · exact key _ _ ht
    · exact key _ _ ht

theorem serveClient_at_one_time (now : Nat) (text cur : List Char) (s : Ctl) :
    (openCallTimes (text.map (fun c => (now, c))) cur = [] ∧
      serveClient (text.map (fun c => (now, c))) cur s = s) ∨
    (openCallTimes (text.map (fun c => (now, c))) cur ≠ [] ∧
      serveClient (text.map (fun c => (now, c))) cur s = startDoorClosing now s) := by
  rw [serveClient_eq_startCalls]
  cases hl : openCallTimes (text.map (fun c => (now, c))) cur with
  | nil => exact Or.inl ⟨rfl, rfl⟩
  | cons t ts =>
    right
    obtain ⟨q, hq, e⟩ := openCallTimes_mem _ cur t (by rw [hl]; exact List.mem_cons_self _ _)
    obtain ⟨c, -, rfl⟩ := List.mem_map.1 hq
    simp only at e
    subst e
    exact ⟨by simp, startCalls_cons _ _ _⟩

theorem serveClient_cases (chars : List (Nat × Char)) (cur : List Char) (s : Ctl) :
    serveClient chars cur s = s ∨ ∃ t, serveClient chars cur s = startDoorClosing t s := by
  rw [serveClient_eq_startCalls]
  cases openCallTimes chars cur with
  | nil => exact Or.inl rfl
  | cons t ts => exact Or.inr ⟨t, startCalls_cons t ts s⟩

theorem initTick_driveMatchesPhase (now : Nat) (s : Ctl) (h : DriveMatchesPhase s) :
    DriveMatchesPhase (initTick now s) := by
  obtain ⟨⟨f1, f2⟩, hd, hn⟩ := h
  simp only [initTick]
  split_ifs <;> cases hi : s.isInitialized <;> cases hc : s.isDoorClosing <;>
    cases he : s.extending <;> cases h1 : s.in1 <;> cases h2 : s.in2 <;>
    simp_all [DriveMatchesPhase, FlagsOk, phaseOf, lines, digitalWrite]

theorem controlLinearActuator_after_client (now : Nat) (s u : Ctl)
    (h : DriveMatchesPhase s) (hi : s.isInitialized = true)
    (hu : u = s ∨ ∃ t, u = startDoorClosing t s) :
    DriveMatchesPhase (controlLinearActuator now u) := by
  obtain ⟨⟨f1, f2⟩, hd, hn⟩ := h
  rcases hu with rfl | ⟨t, rfl⟩
  · simp only [controlLinearActuator]
    split_ifs <;> cases hc : u.isDoorClosing <;>
      cases he : u.extending <;> cases h1 : u.in1 <;> cases h2 : u.in2 <;>
      simp_all [DriveMatchesPhase, FlagsOk, phaseOf, lines, digitalWrite]
  · simp only [controlLinearActuator, startDoorClosing]
    split_ifs <;> cases hc : s.isDoorClosing <;>
      cases he : s.extending <;> cases h1 : s.in1 <;> cases h2 : s.in2 <;>
      simp_all [DriveMatchesPhase, FlagsOk, phaseOf, lines, digitalWrite]

theorem loop_driveMatchesPhase (i : LoopIn) (s : Ctl) (h : DriveMatchesPhase s) :
    DriveMatchesPhase (loop i s) := by
  simp only [loop]
  split_ifs with hi
  · exact initTick_driveMatchesPhase _ _ h
  · have hi1 : s.isInitialized = true := by simpa using hi
    apply controlLinearActuator_after_client _ s _ h hi1
    cases i.client with
    | none => exact Or.inl rfl
    | some chars => exact serveClient_cases chars [] s

theorem loops_driveMatchesPhase (is : List LoopIn) (s : Ctl) (h : DriveMatchesPhase s) :
    DriveMatchesPhase (loops is s) := by
  induction is generalizing s with
  | nil => exact h
  | cons i is ih => exact ih _ (loop_driveMatchesPhase i s h)

theorem setup_driveMatchesPhase (now0 : Nat) : DriveMatchesPhase (setup now0 boot) := by
  simp [DriveMatchesPhase, FlagsOk, phaseOf, lines, setup, boot, digitalWrite]

theorem initTick_stop_cases (now : Nat) (s : Ctl) (h : DriveMatchesPhase s)
    (hi : s.isInitialized = false) :
    (initTick now s).writes ≠ s.writes → lines (initTick now s) = (LOW, LOW) →
      phaseOf s = Phase.Initializing ∧ phaseOf (initTick now s) = Phase.Ready := by
  obtain ⟨⟨f1, f2⟩, hd, hn⟩ := h
  simp only [initTick]
  split_ifs <;> cases hc : s.isDoorClosing <;>
    cases he : s.extending <;>
    simp_all [phaseOf, lines, digitalWrite]

theorem controlLinearActuator_stop_cases (now : Nat) (s u : Ctl)
    (h : DriveMatchesPhase s) (hi : s.isInitialized = true)
    (hu : u = s ∨ ∃ t, u = startDoorClosing t s) :
    (phaseOf s = Phase.Ready → phaseOf (controlLinearActuator now u) = Phase.Ready →
      controlLinearActuator now u = s) ∧
    ((controlLinearActuator now u).writes ≠ s.writes →
      lines (controlLinearActuator now u) = (LOW, LOW) →
      phaseOf s = Phase.ClosingReturn ∧
        phaseOf (controlLinearActuator now u) = Phase.Ready) := by
  obtain ⟨⟨f1, f2⟩, hd, hn⟩ := h
  rcases hu with rfl | ⟨t, rfl⟩
  · simp only [controlLinearActuator]
    split_ifs <;> cases hc : u.isDoorClosing <;>
      cases he : u.extending <;>
      simp_all [phaseOf, lines, digitalWrite]
  · simp only [controlLinearActuator, startDoorClosing]
    split_ifs <;> cases hc : s.isDoorClosing <;>
      cases he : s.extending <;>
      simp_all [phaseOf, lines, digitalWrite]

theorem ulSub_self (a : Nat) : ulSub a a = 0 := by
  unfold ulSub ULONG_MOD
  omega

theorem ulSub_wrapped (start d : Nat) (hd : d < ULONG_MOD) :
    ulSub ((start + d) % ULONG_MOD) start = d := by
  unfold ulSub ULONG_MOD at *
  omega

/-! ## The claims -/

/-- C1: `startDoorClosing` is a no-op outside Ready.  For every state that is
Initializing (`isInitialized` false) or in a closing phase (`isDoorClosing`
true) and every call time, the call returns the state unchanged: the flags
`isInitialized`, `isDoorClosing`, `extending` and the clock
`doorCloseStartTime` keep their values and no pin is written. -/
theorem startDoorClosing_noop_outside_ready (now : Nat) (s : Ctl)
    (h : s.isInitialized = false ∨ s.isDoorClosing = true) :
    startDoorClosing now s = s ∧
    (startDoorClosing now s).isInitialized = s.isInitialized ∧
    (startDoorClosing now s).isDoorClosing = s.isDoorClosing ∧
    (startDoorClosing now s).extending = s.extending ∧
    (startDoorClosing now s).doorCloseStartTime = s.doorCloseStartTime ∧
    (startDoorClosing now s).writes = s.writes ∧
    lines (startDoorClosing now s) = lines s := by
  have e : startDoorClosing now s = s := startDoorClosing_of_not_ready now s h
  simp [e]

/-- Witness of C1: a request 5 ms after `setup` (still Initializing). -/
theorem startDoorClosing_noop_outside_ready_witness :
    startDoorClosing 5 (setup 0 boot) = setup 0 boot ∧
    (startDoorClosing 5 (setup 0 boot)).isInitialized = (setup 0 boot).isInitialized ∧
    (startDoorClosing 5 (setup 0 boot)).isDoorClosing = (setup 0 boot).isDoorClosing ∧
    (startDoorClosing 5 (setup 0 boot)).extending = (setup 0 boot).extending ∧
    (startDoorClosing 5 (setup 0 boot)).doorCloseStartTime
      = (setup 0 boot).doorCloseStartTime ∧
    (startDoorClosing 5 (setup 0 boot)).writes = (setup 0 boot).writes ∧
    lines (startDoorClosing 5 (setup 0 boot)) = lines (setup 0 boot) :=
  startDoorClosing_noop_outside_ready 5 (setup 0 boot) (Or.inl rfl)

/-- C2: from every Ready state (`isInitialized` true, `isDoorClosing` false) and
for every call time `t`, `startDoorClosing` yields ClosingRetract
(`isDoorClosing` true, `extending` true) with `doorCloseStartTime = t`, writes
no pin and keeps `isInitialized`; the same holds after any number of completed
closing cycles, which leave the sequencer Ready again. -/
theorem startDoorClosing_from_ready (t : Nat) (s : Ctl)
    (h : s.isInitialized = true ∧ s.isDoorClosing = false) (starts : List Nat) :
    (phaseOf (startDoorClosing t s) = Phase.ClosingRetract ∧
      (startDoorClosing t s).isInitialized = true ∧
      (startDoorClosing t s).isDoorClosing = true ∧
      (startDoorClosing t s).extending = true ∧
      (startDoorClosing t s).doorCloseStartTime = t ∧
      (startDoorClosing t s).writes = s.writes) ∧
    phaseOf (cycles starts s) = Phase.Ready ∧
    phaseOf (startDoorClosing t (cycles starts s)) = Phase.ClosingRetract ∧
    (startDoorClosing t (cycles starts s)).doorCloseStartTime = t := by
  have key : ∀ u : Ctl, u.isInitialized = true ∧ u.isDoorClosing = false →
      phaseOf (startDoorClosing t u) = Phase.ClosingRetract ∧
      (startDoorClosing t u).isInitialized = true ∧
      (startDoorClosing t u).isDoorClosing = true ∧
      (startDoorClosing t u).extending = true ∧
      (startDoorClosing t u).doorCloseStartTime = t ∧
      (startDoorClosing t u).writes = u.writes := by
    rintro u ⟨h1, h2⟩
    simp [startDoorClosing, phaseOf, h1, h2]
  refine ⟨key s h, ?_⟩
  have hr := cycles_ready starts s h
  obtain ⟨k1, _, _, _, k5, _⟩ := key _ hr
  exact ⟨(phaseOf_eq_ready _).2 hr, k1, k5⟩

/-- Witness of C2: the Ready state after initialisation, a request at clock
value 23 005, and two completed cycles before it. -/
theorem startDoorClosing_from_ready_witness :
    (readyState.isInitialized = true ∧ readyState.isDoorClosing = false) ∧
    (startDoorClosing 23005 readyState).doorCloseStartTime = 23005 ∧
    phaseOf (cycles [23005, 70000] readyState) = Phase.Ready ∧
    phaseOf (startDoorClosing 120000 (cycles [23005, 70000] readyState))
      = Phase.ClosingRetract :=
  ⟨⟨rfl, rfl⟩,
   (startDoorClosing_from_ready 23005 readyState ⟨rfl, rfl⟩ []).1.2.2.2.2.1,
   (startDoorClosing_from_ready 120000 readyState ⟨rfl, rfl⟩ [23005, 70000]).2.1,
   (startDoorClosing_from_ready 120000 readyState ⟨rfl, rfl⟩ [23005, 70000]).2.2.1⟩

/-- C3: initialisation ends exactly once.  Let `setup` run at real time `now0`
and let `loop` iterate at non-decreasing real times, the clock wrapping at most
once since `now0`.  The phase is Initializing after `setup` and after every
iteration whose elapsed time `T - now0` is below 23 000 ms; it is Ready after
the first iteration with elapsed at least 23 000 ms; and from any iteration
with elapsed at least 23 000 ms on, no sequence of operations (ticks,
`startDoorClosing`, request lines, further iterations) makes the phase
Initializing again. -/
theorem initializing_until_23000_then_never (now0 : Nat) (its : List Iteration)
    (it : Iteration)
    (hmono : List.Pairwise (fun a b => a ≤ b) (now0 :: (its ++ [it]).map Iteration.T))
    (hwrap : it.T - now0 < ULONG_MOD) :
    phaseOf (setup (millis now0) boot) = Phase.Initializing ∧
    (it.T - now0 < 23000 →
      phaseOf (iterate (its ++ [it]) (setup (millis now0) boot)) = Phase.Initializing) ∧
    (23000 ≤ it.T - now0 → (∀ j ∈ its, j.T - now0 < 23000) →
      phaseOf (iterate its (setup (millis now0) boot)) = Phase.Initializing ∧
      phaseOf (iterate (its ++ [it]) (setup (millis now0) boot)) = Phase.Ready) ∧
    (23000 ≤ it.T - now0 → ∀ ops : List Op,
      phaseOf (run ops (iterate (its ++ [it]) (setup (millis now0) boot)))
        ≠ Phase.Initializing) := by
  -- what monotonicity gives
  rw [List.pairwise_cons, List.map_append, List.pairwise_append] at hmono
  obtain ⟨hfrom, -, -, hbefore⟩ := hmono
  have hit0 : now0 ≤ it.T := hfrom it.T (by simp)
  have hj0 : ∀ j ∈ its, now0 ≤ j.T ∧ j.T ≤ it.T := fun j hj =>
    ⟨hfrom j.T (by simp; exact Or.inl ⟨j, hj, rfl⟩),
     hbefore j.T (List.mem_map_of_mem _ hj) it.T (by simp)⟩
  -- the state `setup` establishes
  have s1 : (setup (millis now0) boot).isInitialized = false := rfl
  have s2 : (setup (millis now0) boot).initStartTime = millis now0 := rfl
  have s3 : (setup (millis now0) boot).isDoorClosing = false := rfl
  refine ⟨by simp [phaseOf, s1], ?_, ?_, ?_⟩
  · intro hlt
    have hall : ∀ j ∈ its ++ [it], now0 ≤ j.T ∧ j.T - now0 < 23000 := by
      intro j hj
      rcases List.mem_append.1 hj with hj | hj
      · have := hj0 j hj
        exact ⟨this.1, by omega⟩
      · rw [List.mem_singleton] at hj
        subst hj
        exact ⟨hit0, hlt⟩
    have := iterate_initializing now0 _ _ s1 s2 s3 hall
    simp [phaseOf, this.1]
  · intro hge hfirst
    have hall : ∀ j ∈ its, now0 ≤ j.T ∧ j.T - now0 < 23000 :=
      fun j hj => ⟨(hj0 j hj).1, hfirst j hj⟩
    obtain ⟨k1, k3⟩ := iterate_initializing now0 _ _ s1 s2 s3 hall
    have k2 : (iterate its (setup (millis now0) boot)).initStartTime = millis now0 := by
      rw [iterate_initStartTime, s2]
    have e : ulSub (millis it.T) (millis now0) = it.T - now0 :=
      ulSub_millis_small now0 it.T hit0 hwrap
    refine ⟨by simp [phaseOf, k1], ?_⟩
    rw [iterate_append]
    simp [iterate, phaseOf, loop, initTick, Iteration.input, k1, k2, k3, e, hge, digitalWrite]
  · intro hge ops
    have k2 : (iterate its (setup (millis now0) boot)).initStartTime = millis now0 := by
      rw [iterate_initStartTime, s2]
    have hi : (iterate (its ++ [it]) (setup (millis now0) boot)).isInitialized = true := by
      rw [iterate_append]
      exact loop_finishes_init now0 it _ k2 hit0 hge hwrap
    have := run_keeps_initialized ops _ hi
    rw [Ne, phaseOf_eq_initializing, this]
    simp

/-- Witness of C3: `setup` at real time 0, iterations at 10 ms and 23 000 ms. -/
theorem initializing_until_23000_then_never_witness :
    (List.Pairwise (fun a b => a ≤ b)
        (0 :: ([earlyIteration] ++ [lateIteration]).map Iteration.T) ∧
      lateIteration.T - 0 < ULONG_MOD) ∧
    phaseOf (iterate [earlyIteration] (setup (millis 0) boot)) = Phase.Initializing ∧
    phaseOf (iterate ([earlyIteration] ++ [lateIteration]) (setup (millis 0) boot))
      = Phase.Ready :=
  ⟨⟨by decide, by decide⟩,
   (initializing_until_23000_then_never 0 [earlyIteration] lateIteration
      (by decide) (by decide)).2.2.1 (by decide) (by decide)⟩

/-- C4: a closing cycle takes exactly 40 000 ms under over-polling.  Let
`startDoorClosing` succeed at real time `t0` (from a Ready state) and let
`controlLinearActuator` then be called at every millisecond from `t0` on, any
number of times per millisecond.  After a call at real time `T` the phase is
ClosingRetract if `T < t0 + 20000`, ClosingReturn if
`t0 + 20000 ≤ T < t0 + 40000`, and Ready from the first call at
`t0 + 40000` on. -/
theorem closing_cycle_takes_40000 (t0 : Nat) (s : Ctl)
    (h : s.isInitialized = true ∧ s.isDoorClosing = false) (Ts : List Nat) (T : Nat)
    (hpoll : List.Chain (fun a b => b = a ∨ b = a + 1) t0 (Ts ++ [T])) :
    phaseOf (ticks (Ts ++ [T]) (startDoorClosing (millis t0) s)) =
      if T < t0 + 20000 then Phase.ClosingRetract
      else if T < t0 + 40000 then Phase.ClosingReturn
      else Phase.Ready := by
  have h0 : CycleAt t0 t0 (startDoorClosing (millis t0) s) := by
    obtain ⟨h1, h2⟩ := h
    refine ⟨by rw [startDoorClosing_isInitialized]; exact h1, Or.inl ?_⟩
    simp [startDoorClosing, h1, h2]
  obtain ⟨hi, hc⟩ := cycleAt_ticks t0 Ts t0 T _ (le_refl _) h0 hpoll
  rcases hc with ⟨hlt, hc, he, -⟩ | ⟨hge, hlt, hc, he, -⟩ | ⟨hge, hc⟩
  · rw [if_pos hlt, phaseOf_eq_retract]
    exact ⟨hi, hc, he⟩
  · rw [if_neg (by omega), if_pos hlt, phaseOf_eq_return]
    exact ⟨hi, hc, he⟩
  · rw [if_neg (by omega), if_neg (by omega), phaseOf_eq_ready]
    exact ⟨hi, hc⟩

/-- Witness of C4: trigger at real time 24 000, polled twice at 24 000, once
at 24 001 and three times at 24 002. -/
theorem closing_cycle_takes_40000_witness :
    ((readyState.isInitialized = true ∧ readyState.isDoorClosing = false) ∧
      List.Chain (fun a b => b = a ∨ b = a + 1) 24000
        ([24000, 24000, 24001, 24002, 24002] ++ [24002])) ∧
    phaseOf (ticks ([24000, 24000, 24001, 24002, 24002] ++ [24002])
        (startDoorClosing (millis 24000) readyState)) =
      if 24002 < 24000 + 20000 then Phase.ClosingRetract
      else if 24002 < 24000 + 40000 then Phase.ClosingReturn
      else Phase.Ready :=
  ⟨⟨⟨rfl, rfl⟩, by simp⟩,
   closing_cycle_takes_40000 24000 readyState ⟨rfl, rfl⟩
     [24000, 24000, 24001, 24002, 24002] 24002 (by simp)⟩

/-- C5, as the code has it: with line A = IN1 and line B = IN2, every call of
`controlLinearActuator` that finds the phase ClosingRetract (`extending` true)
writes IN1 low and IN2 high and leaves the lines at Reverse (IN1=0, IN2=1);
every call that finds the phase ClosingReturn (`extending` false) with elapsed
below 20 000 ms writes IN1 high and IN2 low and leaves the lines at Forward
(IN1=1, IN2=0). -/
theorem controlLinearActuator_directions (now : Nat) (s : Ctl)
    (h : s.isDoorClosing = true) :
    (s.extending = true →
      (controlLinearActuator now s).writes = s.writes ++ [(IN1_PIN, LOW), (IN2_PIN, HIGH)] ∧
      lines (controlLinearActuator now s) = (LOW, HIGH)) ∧
    (s.extending = false → ulSub now s.doorCloseStartTime < 20000 →
      (controlLinearActuator now s).writes = s.writes ++ [(IN1_PIN, HIGH), (IN2_PIN, LOW)] ∧
      lines (controlLinearActuator now s) = (HIGH, LOW)) := by
  constructor
  · intro he
    simp only [controlLinearActuator, h, he]
    split_ifs <;> simp_all [digitalWrite, lines]
  · intro he hlt
    have hn : ¬ (20000 ≤ ulSub now s.doorCloseStartTime) := by omega
    simp [controlLinearActuator, h, he, hn, digitalWrite, lines]

/-- Witness of C5 (as the code has it): the call 1 ms into ClosingRetract. -/
theorem controlLinearActuator_directions_witness :
    (retractState.isDoorClosing = true ∧ retractState.extending = true) ∧
    (controlLinearActuator 24001 retractState).writes
      = retractState.writes ++ [(IN1_PIN, LOW), (IN2_PIN, HIGH)] ∧
    lines (controlLinearActuator 24001 retractState) = (LOW, HIGH) :=
  ⟨⟨rfl, rfl⟩, (controlLinearActuator_directions 24001 retractState rfl).1 rfl⟩

/-- C5 as stated fails: 1 ms into ClosingRetract the call commands IN1=0,
IN2=1, not Forward (IN1=1, IN2=0); 1 ms into ClosingReturn the call commands
IN1=1, IN2=0, not Reverse (IN1=0, IN2=1). -/
theorem controlLinearActuator_directions_counterexample :
    (phaseOf retractState = Phase.ClosingRetract ∧
      lines (controlLinearActuator 24001 retractState) = (LOW, HIGH) ∧
      lines (controlLinearActuator 24001 retractState) ≠ (HIGH, LOW)) ∧
    (phaseOf returnState = Phase.ClosingReturn ∧
      ulSub 44001 returnState.doorCloseStartTime < 20000 ∧
      lines (controlLinearActuator 44001 returnState) = (HIGH, LOW) ∧
      lines (controlLinearActuator 44001 returnState) ≠ (LOW, HIGH)) := by
  decide

/-- C6, as the code has it: the iterations of `loop` command one fixed
direction for the whole Initializing phase, Forward (IN1=1, IN2=0, with line
A = IN1).  Every iteration that finds the phase Initializing first writes IN1
high and IN2 low, and after every iteration that leaves the phase Initializing
the control lines are at Forward. -/
theorem loop_initializing_direction (i : LoopIn) (s : Ctl)
    (h : phaseOf s = Phase.Initializing) :
    (∃ more, (loop i s).writes = s.writes ++ [(IN1_PIN, HIGH), (IN2_PIN, LOW)] ++ more) ∧
    (phaseOf (loop i s) = Phase.Initializing →
      (loop i s).writes = s.writes ++ [(IN1_PIN, HIGH), (IN2_PIN, LOW)] ∧
      lines (loop i s) = (HIGH, LOW)) := by
  rw [phaseOf_eq_initializing] at h
  by_cases hge : 23000 ≤ ulSub i.tInit s.initStartTime
  · refine ⟨⟨[(IN1_PIN, LOW), (IN2_PIN, LOW)], ?_⟩, ?_⟩
    · simp [loop, initTick, h, hge, digitalWrite]
    · intro hp
      rw [phaseOf_eq_initializing] at hp
      simp [loop, initTick, h, hge, digitalWrite] at hp
  · refine ⟨⟨[], ?_⟩, fun _ => ?_⟩
    · simp [loop, initTick, h, hge, digitalWrite]
    · simp [loop, initTick, h, hge, digitalWrite, lines]

/-- Witness of C6 (as the code has it): the first iteration after `setup`. -/
theorem loop_initializing_direction_witness :
    phaseOf initState = Phase.Initializing ∧
    (loop { tInit := 0, client := none, tCtl := 0 } initState).writes
      = initState.writes ++ [(IN1_PIN, HIGH), (IN2_PIN, LOW)] ∧
    lines (loop { tInit := 0, client := none, tCtl := 0 } initState) = (HIGH, LOW) :=
  ⟨by decide,
   (loop_initializing_direction { tInit := 0, client := none, tCtl := 0 } initState
      (by decide)).2 (by decide)⟩

/-- C6 as stated fails: `setup` leaves the lines at IN1=0, IN2=1, and the first
iteration of `loop`, which leaves the phase Initializing, leaves them at
IN1=1, IN2=0: not Reverse, and not the direction `setup` left. -/
theorem loop_initializing_direction_counterexample :
    phaseOf initState = Phase.Initializing ∧
    lines initState = (LOW, HIGH) ∧
    phaseOf (loop { tInit := 0, client := none, tCtl := 0 } initState)
      = Phase.Initializing ∧
    lines (loop { tInit := 0, client := none, tCtl := 0 } initState) = (HIGH, LOW) ∧
    lines (loop { tInit := 0, client := none, tCtl := 0 } initState) ≠ (LOW, HIGH) ∧
    lines (loop { tInit := 0, client := none, tCtl := 0 } initState) ≠ lines initState := by
  decide

/-- C7, as the code has it: the phase switches at exactly 20 000 ms, the drive
one call later.  A call of `controlLinearActuator` in ClosingRetract with
elapsed below 20 000 ms (19 999 included) keeps the phase and leaves the lines
at the ClosingRetract direction (IN1=0, IN2=1).  A call with elapsed at least
20 000 ms (20 000 included) makes the phase ClosingReturn with the clock set to
the call time, still leaves the lines at the ClosingRetract direction, and the
next call (elapsed below 20 000 ms on the new clock) leaves them at the
ClosingReturn direction (IN1=1, IN2=0), the opposite one. -/
theorem drive_switches_after_20000 (now next : Nat) (s : Ctl)
    (h : phaseOf s = Phase.ClosingRetract) :
    (ulSub now s.doorCloseStartTime < 20000 →
      phaseOf (controlLinearActuator now s) = Phase.ClosingRetract ∧
      lines (controlLinearActuator now s) = (LOW, HIGH)) ∧
    (20000 ≤ ulSub now s.doorCloseStartTime →
      phaseOf (controlLinearActuator now s) = Phase.ClosingReturn ∧
      (controlLinearActuator now s).doorCloseStartTime = now ∧
      lines (controlLinearActuator now s) = (LOW, HIGH) ∧
      (ulSub next now < 20000 →
        phaseOf (controlLinearActuator next (controlLinearActuator now s))
          = Phase.ClosingReturn ∧
        lines (controlLinearActuator next (controlLinearActuator now s)) = (HIGH, LOW))) := by
  rw [phaseOf_eq_retract] at h
  obtain ⟨hi, hc, he⟩ := h
  constructor
  · intro hlt
    have hn : ¬ (20000 ≤ ulSub now s.doorCloseStartTime) := by omega
    simp [controlLinearActuator, phaseOf, hi, hc, he, hn, digitalWrite, lines]
  · intro hge
    refine ⟨?_, ?_, ?_, ?_⟩
    · simp [controlLinearActuator, phaseOf, hi, hc, he, hge, digitalWrite]
    · simp [controlLinearActuator, hc, he, hge, digitalWrite]
    · simp [controlLinearActuator, hc, he, hge, digitalWrite, lines]
    · intro hlt
      have hn : ¬ (20000 ≤ ulSub next now) := by omega
      simp [controlLinearActuator, phaseOf, hi, hc, he, hge, hn, digitalWrite, lines]

/-- Witness of C7 (as the code has it): the cycle started at clock value
24 000, called at 44 000 (elapsed 20 000) and again at 44 001. -/
theorem drive_switches_after_20000_witness :
    (phaseOf retractState = Phase.ClosingRetract ∧
      ulSub 44000 retractState.doorCloseStartTime = 20000) ∧
    phaseOf (controlLinearActuator 44000 retractState) = Phase.ClosingReturn ∧
    (controlLinearActuator 44000 retractState).doorCloseStartTime = 44000 ∧
    lines (controlLinearActuator 44000 retractState) = (LOW, HIGH) ∧
    lines (controlLinearActuator 44001 (controlLinearActuator 44000 retractState))
      = (HIGH, LOW) :=
  ⟨⟨by decide, by decide⟩,
   ((drive_switches_after_20000 44000 44001 retractState (by decide)).2 (by decide)).1,
   ((drive_switches_after_20000 44000 44001 retractState (by decide)).2 (by decide)).2.1,
   ((drive_switches_after_20000 44000 44001 retractState (by decide)).2 (by decide)).2.2.1,
   (((drive_switches_after_20000 44000 44001 retractState (by decide)).2
      (by decide)).2.2.2 (by decide)).2⟩

/-- C7 as stated fails: in ClosingRetract with the clock at 24 000, the call
with elapsed 19 999 ms and the call with elapsed 20 000 ms both leave the lines
at IN1=0, IN2=1, the ClosingRetract direction; the call with elapsed 20 000 ms
does not leave them at the ClosingReturn direction (IN1=1, IN2=0). -/
theorem drive_switches_after_20000_counterexample :
    phaseOf retractState = Phase.ClosingRetract ∧
    ulSub 43999 retractState.doorCloseStartTime = 19999 ∧
    lines (controlLinearActuator 43999 retractState) = (LOW, HIGH) ∧
    ulSub 44000 retractState.doorCloseStartTime = 20000 ∧
    lines (controlLinearActuator 44000 retractState) = (LOW, HIGH) ∧
    lines (controlLinearActuator 44000 retractState)
      = lines (controlLinearActuator 43999 retractState) ∧
    lines (controlLinearActuator 44000 retractState) ≠ (HIGH, LOW) := by
  decide

/-- C8: the open-request scenario.  From every Ready state, the request line
`GET /open HTTP/1.1` handled at real time `t` yields ClosingRetract with the
phase clock at the clock value of `t`; after any calls of
`controlLinearActuator` at real times in `[t, t + 20000)`, the same line
handled at `t + 5000` leaves the phase ClosingRetract and the phase clock at
the clock value of `t`. -/
theorem open_request_twice (t : Nat) (s : Ctl)
    (h : s.isInitialized = true ∧ s.isDoorClosing = false) (Ts : List Nat)
    (hT : ∀ T ∈ Ts, t ≤ T ∧ T < t + 20000) :
    phaseOf (requestLine (millis t) "GET /open HTTP/1.1" s) = Phase.ClosingRetract ∧
    (requestLine (millis t) "GET /open HTTP/1.1" s).doorCloseStartTime = millis t ∧
    phaseOf (requestLine (millis (t + 5000)) "GET /open HTTP/1.1"
      (ticks Ts (requestLine (millis t) "GET /open HTTP/1.1" s))) = Phase.ClosingRetract ∧
    (requestLine (millis (t + 5000)) "GET /open HTTP/1.1"
      (ticks Ts (requestLine (millis t) "GET /open HTTP/1.1" s))).doorCloseStartTime
      = millis t := by
  obtain ⟨h1, h2⟩ := h
  rw [requestLine_open (millis t) s]
  have a1 : (startDoorClosing (millis t) s).isInitialized = true := by
    rw [startDoorClosing_isInitialized]; exact h1
  have a2 : (startDoorClosing (millis t) s).isDoorClosing = true := by
    simp [startDoorClosing, h1, h2]
  have a3 : (startDoorClosing (millis t) s).extending = true := by
    simp [startDoorClosing, h1, h2]
  have a4 : (startDoorClosing (millis t) s).doorCloseStartTime = millis t := by
    simp [startDoorClosing, h1, h2]
  obtain ⟨b1, b2, b3, b4⟩ := ticks_first_stroke t Ts _ hT a2 a3 a4
  rw [a1] at b1
  rw [requestLine_open, startDoorClosing_of_not_ready _ _ (Or.inr b2)]
  exact ⟨(phaseOf_eq_retract _).2 ⟨a1, a2, a3⟩, a4, (phaseOf_eq_retract _).2 ⟨b1, b2, b3⟩, b4⟩

/-- Witness of C8: Ready after initialisation, first request at 24 000 ms,
ticks at 24 000, 26 500 and 29 000 ms, second request at 29 000 ms. -/
theorem open_request_twice_witness :
    ((readyState.isInitialized = true ∧ readyState.isDoorClosing = false) ∧
      ∀ T ∈ [24000, 26500, 29000], 24000 ≤ T ∧ T < 24000 + 20000) ∧
    phaseOf (requestLine (millis 24000) "GET /open HTTP/1.1" readyState)
      = Phase.ClosingRetract ∧
    (requestLine (millis 24000) "GET /open HTTP/1.1" readyState).doorCloseStartTime
      = millis 24000 ∧
    phaseOf (requestLine (millis (24000 + 5000)) "GET /open HTTP/1.1"
      (ticks [24000, 26500, 29000]
        (requestLine (millis 24000) "GET /open HTTP/1.1" readyState)))
      = Phase.ClosingRetract ∧
    (requestLine (millis (24000 + 5000)) "GET /open HTTP/1.1"
      (ticks [24000, 26500, 29000]
        (requestLine (millis 24000) "GET /open HTTP/1.1" readyState))).doorCloseStartTime
      = millis 24000 :=
  ⟨⟨⟨rfl, rfl⟩, by decide⟩,
   open_request_twice 24000 readyState ⟨rfl, rfl⟩ [24000, 26500, 29000] (by decide)⟩

/-- C9: a stroke cannot be aborted or shortened.  In every state with a closing
cycle in progress, `startDoorClosing` and a client (whatever it sends) change
nothing, in particular not the phase clock, and a call of
`controlLinearActuator` whose elapsed time on the phase clock is below
20 000 ms keeps the phase and the clock.  Hence, for a cycle triggered from
Ready at real time `t0` and every interleaving of ticks at non-decreasing real
times from `t0` on with `startDoorClosing` calls and clients: while all ticks
are before `t0 + 20000` the phase is ClosingRetract on the clock of `t0`, and
while all ticks are before `t0 + 40000` the cycle is still in progress (the
phase is not Ready). -/
theorem stroke_runs_to_its_duration (s : Ctl) (hs : s.isDoorClosing = true)
    (now : Nat) (chars : List (Nat × Char)) (cur : List Char)
    (t0 : Nat) (s0 : Ctl) (h0 : s0.isInitialized = true ∧ s0.isDoorClosing = false)
    (evs : List Event) (hmono : List.Pairwise (fun a b => a ≤ b) (t0 :: tickTimes evs)) :
    (startDoorClosing now s = s ∧ serveClient chars cur s = s) ∧
    (ulSub now s.doorCloseStartTime < 20000 →
      phaseOf (controlLinearActuator now s) = phaseOf s ∧
      (controlLinearActuator now s).doorCloseStartTime = s.doorCloseStartTime) ∧
    ((∀ T ∈ tickTimes evs, T < t0 + 20000) →
      phaseOf (runEvents evs (startDoorClosing (millis t0) s0)) = Phase.ClosingRetract ∧
      (runEvents evs (startDoorClosing (millis t0) s0)).doorCloseStartTime = millis t0) ∧
    ((∀ T ∈ tickTimes evs, T < t0 + 40000) →
      (runEvents evs (startDoorClosing (millis t0) s0)).isDoorClosing = true ∧
      phaseOf (runEvents evs (startDoorClosing (millis t0) s0)) ≠ Phase.Ready) := by
  obtain ⟨h1, h2⟩ := h0
  have start0 : StrokeAt t0 t0 (startDoorClosing (millis t0) s0) := by
    refine ⟨?_, ?_, Or.inl ⟨?_, ?_⟩⟩ <;> simp [startDoorClosing, h1, h2]
  refine ⟨⟨startDoorClosing_of_not_ready now s (Or.inr hs),
    serveClient_of_not_ready chars cur s (Or.inr hs)⟩, ?_, ?_, ?_⟩
  · intro hlt
    have hn : ¬ (20000 ≤ ulSub now s.doorCloseStartTime) := by omega
    cases he : s.extending <;>
      simp [controlLinearActuator, phaseOf, he, hn, digitalWrite, hs]
  · intro hT
    obtain ⟨L1, hL1, hi, hc, hk⟩ := strokeAt_events t0 evs t0 _ (le_refl _) hmono
      (fun T hm => by have := hT T hm; omega) start0
    have hL1lt : L1 < t0 + 20000 := by
      rcases hL1 with hL1 | hL1
      · omega
      · exact hT L1 hL1
    rcases hk with ⟨he, hk⟩ | ⟨_, c, hc1, hc2, _⟩
    · exact ⟨(phaseOf_eq_retract _).2 ⟨hi, hc, he⟩, hk⟩
    · omega
  · intro hT
    obtain ⟨L1, -, hi, hc, -⟩ := strokeAt_events t0 evs t0 _ (le_refl _) hmono hT start0
    refine ⟨hc, ?_⟩
    rw [Ne, phaseOf_eq_ready, hc]
    simp

/-- Witness of C9: the cycle started at 24 000 ms, with a second open request
and a direct `startDoorClosing` between ticks at 30 000, 44 000 and 63 999 ms. -/
theorem stroke_runs_to_its_duration_witness :
    (retractState.isDoorClosing = true ∧
      (readyState.isInitialized = true ∧ readyState.isDoorClosing = false) ∧
      List.Pairwise (fun a b => a ≤ b)
        (24000 :: tickTimes [Event.tick 30000, Event.request openRequest, Event.tick 44000,
          Event.start 50000, Event.tick 63999])) ∧
    (startDoorClosing 30000 retractState = retractState ∧
      serveClient openRequest [] retractState = retractState) ∧
    (runEvents [Event.tick 30000, Event.request openRequest, Event.tick 44000,
        Event.start 50000, Event.tick 63999]
      (startDoorClosing (millis 24000) readyState)).isDoorClosing = true :=
  ⟨⟨rfl, ⟨rfl, rfl⟩, by decide⟩,
   (stroke_runs_to_its_duration retractState rfl 30000 openRequest [] 24000 readyState
      ⟨rfl, rfl⟩ [Event.tick 30000, Event.request openRequest, Event.tick 44000,
        Event.start 50000, Event.tick 63999] (by decide)).1,
   ((stroke_runs_to_its_duration retractState rfl 30000 openRequest [] 24000 readyState
      ⟨rfl, rfl⟩ [Event.tick 30000, Event.request openRequest, Event.tick 44000,
        Event.start 50000, Event.tick 63999] (by decide)).2.2.2 (by decide)).1⟩

/-- C10: phase transitions follow only the edges Initializing → Ready →
ClosingRetract → ClosingReturn → Ready.  For every reachable state and every
single operation (the initialisation block of `loop`, `controlLinearActuator`,
`startDoorClosing`, each at any clock value), the phase afterwards is the phase
before or its successor along one of these edges. -/
theorem phase_follows_edges (s : Ctl) (hr : Reachable s) (now : Nat) :
    (phaseOf (initTick now s) = phaseOf s ∨ phaseOf (initTick now s) = (phaseOf s).next) ∧
    (phaseOf (controlLinearActuator now s) = phaseOf s ∨
      phaseOf (controlLinearActuator now s) = (phaseOf s).next) ∧
    (phaseOf (startDoorClosing now s) = phaseOf s ∨
      phaseOf (startDoorClosing now s) = (phaseOf s).next) := by
  obtain ⟨f1, f2⟩ := reachable_flagsOk s hr
  refine ⟨?_, ?_, ?_⟩
  · simp only [initTick]
    split_ifs <;> cases hi : s.isInitialized <;> cases hc : s.isDoorClosing <;>
      cases he : s.extending <;> simp_all [phaseOf, Phase.next, digitalWrite]
  · simp only [controlLinearActuator]
    split_ifs <;> cases hi : s.isInitialized <;> cases hc : s.isDoorClosing <;>
      cases he : s.extending <;> simp_all [phaseOf, Phase.next, digitalWrite]
  · cases hi : s.isInitialized <;> cases hc : s.isDoorClosing <;>
      cases he : s.extending <;>
      simp_all [startDoorClosing, phaseOf, Phase.next]

/-- Witness of C10: the state 20 000 ms into a closing cycle, reached by
`setup` and three iterations of `loop`; the call at clock value 64 000 takes
the edge ClosingReturn → Ready. -/
theorem phase_follows_edges_witness :
    Reachable returnState ∧
    phaseOf returnState = Phase.ClosingReturn ∧
    phaseOf (controlLinearActuator 64000 returnState) = Phase.Ready ∧
    ((phaseOf (initTick 64000 returnState) = phaseOf returnState ∨
        phaseOf (initTick 64000 returnState) = (phaseOf returnState).next) ∧
      (phaseOf (controlLinearActuator 64000 returnState) = phaseOf returnState ∨
        phaseOf (controlLinearActuator 64000 returnState) = (phaseOf returnState).next) ∧
      (phaseOf (startDoorClosing 64000 returnState) = phaseOf returnState ∨
        phaseOf (startDoorClosing 64000 returnState) = (phaseOf returnState).next)) :=
  ⟨⟨0, [Op.iteration { tInit := 23000, client := none, tCtl := 23000 },
        Op.iteration { tInit := 24000, client := some openRequest, tCtl := 24000 },
        Op.iteration { tInit := 44000, client := none, tCtl := 44000 }], rfl⟩,
   by decide, by decide,
   phase_follows_edges returnState
     ⟨0, [Op.iteration { tInit := 23000, client := none, tCtl := 23000 },
        Op.iteration { tInit := 24000, client := some openRequest, tCtl := 24000 },
        Op.iteration { tInit := 44000, client := none, tCtl := 44000 }], rfl⟩ 64000⟩

/-- C11, as the code has it: after `setup` and after every complete operation
(an iteration of `loop`, a call of `controlLinearActuator` or
`startDoorClosing`, a client served), at any clock values and with any request
lines, the pair (IN1, IN2) is one of (1,0), (0,1), (0,0) and never (1,1). -/
theorem lines_never_both_high (now0 : Nat) (ops : List Op) :
    (lines (run ops (setup now0 boot)) = (HIGH, LOW) ∨
      lines (run ops (setup now0 boot)) = (LOW, HIGH) ∨
      lines (run ops (setup now0 boot)) = (LOW, LOW)) ∧
    lines (run ops (setup now0 boot)) ≠ (HIGH, HIGH) := by
  have h : lines (run ops (setup now0 boot)) ≠ (HIGH, HIGH) :=
    run_not_both_high ops _ (by simp [lines, setup, digitalWrite])
  refine ⟨?_, h⟩
  revert h
  simp only [lines]
  cases (run ops (setup now0 boot)).in1 <;> cases (run ops (setup now0 boot)).in2 <;> simp

/-- C11 as stated fails: `setup` leaves the lines at IN1=0, IN2=1, and the
first write of the first iteration of `loop` (IN1 high) makes the pair (1,1);
it is (1,1) again after the first write of the call of `controlLinearActuator`
that follows the end of ClosingRetract. -/
theorem lines_never_both_high_counterexample :
    (loop { tInit := 0, client := none, tCtl := 0 } initState).writes
      = initState.writes ++ [(IN1_PIN, HIGH), (IN2_PIN, LOW)] ∧
    levelsAfterEachWrite (lines initState) [(IN1_PIN, HIGH), (IN2_PIN, LOW)]
      = [(HIGH, HIGH), (HIGH, LOW)] ∧
    (HIGH, HIGH) ∈ levelsAfterEachWrite (lines boot)
      (loop { tInit := 0, client := none, tCtl := 0 } initState).writes ∧
    (controlLinearActuator 44001 returnState).writes
      = returnState.writes ++ [(IN1_PIN, HIGH), (IN2_PIN, LOW)] ∧
    levelsAfterEachWrite (lines returnState) [(IN1_PIN, HIGH), (IN2_PIN, LOW)]
      = [(HIGH, HIGH), (HIGH, LOW)] := by
  decide

/-- C12, as the code has it: the open command is recognised on the request
line as it accumulates.  For every request line without newline handled at
clock value `now`, `startDoorClosing` is called if and only if the line,
carriage returns dropped, contains the token `GET /open`; so it is called when
the complete line ends with the token, the handler then does what one call
`startDoorClosing now` does, and a line that does not contain the token
changes no state. -/
theorem open_trigger_on_request_line (now : Nat) (line : String) (s : Ctl)
    (hline : ∀ c ∈ line.toList, c ≠ '\n') :
    (openCallTimes (line.toList.map (fun c => (now, c))) [] ≠ [] ↔
      List.IsInfix openToken (withoutCR line.toList)) ∧
    (endsWith (withoutCR line.toList) openToken = true →
      openCallTimes (line.toList.map (fun c => (now, c))) [] ≠ []) ∧
    (List.IsInfix openToken (withoutCR line.toList) →
      requestLine now line s = startDoorClosing now s) ∧
    (¬ List.IsInfix openToken (withoutCR line.toList) → requestLine now line s = s) := by
  have hchars : ∀ p ∈ line.toList.map (fun c => (now, c)), p.2 ≠ '\n' := by
    intro p hp
    obtain ⟨c, hc, rfl⟩ := List.mem_map.1 hp
    exact hline c hc
  have htext : (line.toList.map (fun c => (now, c))).map Prod.snd = line.toList := by
    rw [List.map_map]
    exact List.map_id _
  have hiff : openCallTimes (line.toList.map (fun c => (now, c))) [] ≠ [] ↔
      List.IsInfix openToken (withoutCR line.toList) := by
    rw [openCallTimes_ne_nil_iff _ [] hchars, htext]
    exact suffix_of_part_iff_infix line.toList
  refine ⟨hiff, ?_, ?_, ?_⟩
  · intro hs
    exact hiff.2 (List.IsSuffix.isInfix ((endsWith_iff _ _).1 hs))
  · intro hin
    rcases serveClient_at_one_time now line.toList [] s with ⟨h0, -⟩ | ⟨-, h1⟩
    · exact absurd h0 (hiff.2 hin)
    · exact h1
  · intro hin
    rcases serveClient_at_one_time now line.toList [] s with ⟨-, h0⟩ | ⟨h1, -⟩
    · exact h0
    · exact absurd (hiff.1 h1) hin

/-- Witness of C12 (as the code has it): the line `GET /open HTTP/1.1` from
the Ready state. -/
theorem open_trigger_on_request_line_witness :
    (∀ c ∈ ("GET /open HTTP/1.1").toList, c ≠ '\n') ∧
    (openCallTimes (("GET /open HTTP/1.1").toList.map (fun c => (24000, c))) [] ≠ [] ↔
      List.IsInfix openToken (withoutCR ("GET /open HTTP/1.1").toList)) :=
  ⟨by decide, (open_trigger_on_request_line 24000 "GET /open HTTP/1.1" readyState
    (by decide)).1⟩

/-- C12 as stated fails: the complete line `GET /open HTTP/1.1` does not end
with the token `GET /open`, yet `startDoorClosing` is called (once, when the
ninth character has been read) and the Ready state becomes ClosingRetract. -/
theorem open_trigger_on_request_line_counterexample :
    endsWith ("GET /open HTTP/1.1").toList openToken = false ∧
    openCallTimes (("GET /open HTTP/1.1").toList.map (fun c => (24000, c))) [] = [24000] ∧
    phaseOf readyState = Phase.Ready ∧
    phaseOf (requestLine 24000 "GET /open HTTP/1.1" readyState) = Phase.ClosingRetract ∧
    requestLine 24000 "GET /open HTTP/1.1" readyState ≠ readyState := by
  decide

/-- C13: in every state and at every clock value, the request line
`GET /closed HTTP/1.1` and the unrecognised line `GET /status HTTP/1.1` make
no call of `startDoorClosing` and leave the whole state unchanged: the phase
flags, the phase clock, the control lines and the write log. -/
theorem closed_and_status_lines_ignored (now : Nat) (s : Ctl) :
    (openCallTimes (("GET /closed HTTP/1.1").toList.map (fun c => (now, c))) [] = [] ∧
      requestLine now "GET /closed HTTP/1.1" s = s ∧
      phaseOf (requestLine now "GET /closed HTTP/1.1" s) = phaseOf s ∧
      (requestLine now "GET /closed HTTP/1.1" s).doorCloseStartTime = s.doorCloseStartTime ∧
      lines (requestLine now "GET /closed HTTP/1.1" s) = lines s) ∧
    (openCallTimes (("GET /status HTTP/1.1").toList.map (fun c => (now, c))) [] = [] ∧
      requestLine now "GET /status HTTP/1.1" s = s ∧
      phaseOf (requestLine now "GET /status HTTP/1.1" s) = phaseOf s ∧
      (requestLine now "GET /status HTTP/1.1" s).doorCloseStartTime = s.doorCloseStartTime ∧
      lines (requestLine now "GET /status HTTP/1.1" s) = lines s) := by
  have e1 : requestLine now "GET /closed HTTP/1.1" s = s := rfl
  have e2 : requestLine now "GET /status HTTP/1.1" s = s := rfl
  rw [e1, e2]
  exact ⟨⟨rfl, rfl, rfl, rfl, rfl⟩, ⟨rfl, rfl, rfl, rfl, rfl⟩⟩

/-- C14: Stop exactly in Ready.  After `setup` and after every complete
iteration of `loop` (at any clock values, with any clients), the control lines
are at Stop (IN1=0, IN2=0) exactly when the phase is Ready, and in
Initializing, ClosingRetract and ClosingReturn they hold one of the two
directions.  An iteration that finds and leaves the phase Ready changes
nothing, so the actuator stays stopped until a close is triggered; and an
iteration that writes pins leaves the lines at Stop only if it ends a phase
(Initializing or ClosingReturn) and makes the phase Ready. -/
theorem stop_exactly_when_ready (now0 : Nat) (is : List LoopIn) (i : LoopIn) :
    (lines (loops is (setup now0 boot)) = (LOW, LOW) ↔
      phaseOf (loops is (setup now0 boot)) = Phase.Ready) ∧
    (phaseOf (loops is (setup now0 boot)) ≠ Phase.Ready →
      lines (loops is (setup now0 boot)) = (LOW, HIGH) ∨
      lines (loops is (setup now0 boot)) = (HIGH, LOW)) ∧
    (phaseOf (loops is (setup now0 boot)) = Phase.Ready →
      phaseOf (loop i (loops is (setup now0 boot))) = Phase.Ready →
      loop i (loops is (setup now0 boot)) = loops is (setup now0 boot)) ∧
    ((loop i (loops is (setup now0 boot))).writes ≠ (loops is (setup now0 boot)).writes →
      lines (loop i (loops is (setup now0 boot))) = (LOW, LOW) →
      (phaseOf (loops is (setup now0 boot)) = Phase.Initializing ∨
        phaseOf (loops is (setup now0 boot)) = Phase.ClosingReturn) ∧
      phaseOf (loop i (loops is (setup now0 boot))) = Phase.Ready) := by
  have h := loops_driveMatchesPhase is _ (setup_driveMatchesPhase now0)
  generalize loops is (setup now0 boot) = s at h ⊢
  have hclient : (match i.client with
      | some chars => serveClient chars [] s
      | none => s) = s ∨ ∃ t, (match i.client with
      | some chars => serveClient chars [] s
      | none => s) = startDoorClosing t s := by
    cases i.client with
    | none => exact Or.inl rfl
    | some chars => exact serveClient_cases chars [] s
  refine ⟨h.2.1, ?_, ?_, ?_⟩
  · intro hp
    have h1 := h.2.1
    have h2 := h.2.2
    revert h1 h2 hp
    simp only [lines]
    cases s.in1 <;> cases s.in2 <;> simp
  · intro hr
    have hi : s.isInitialized = true := ((phaseOf_eq_ready s).1 hr).1
    simp only [loop, hi]
    rw [if_neg (by simp)]
    exact (controlLinearActuator_stop_cases i.tCtl s _ h hi hclient).1 hr
  · cases hi : s.isInitialized with
    | false =>
      simp only [loop, hi, if_true]
      intro hw hl
      exact ⟨Or.inl (initTick_stop_cases i.tInit s h hi hw hl).1,
        (initTick_stop_cases i.tInit s h hi hw hl).2⟩
    | true =>
      simp only [loop, hi]
      rw [if_neg (by simp)]
      intro hw hl
      have := (controlLinearActuator_stop_cases i.tCtl s _ h hi hclient).2 hw hl
      exact ⟨Or.inr this.1, this.2⟩

/-- Witness of C14: after `setup` at clock value 0, the iteration at 23 000
writes pins, leaves the lines at Stop and ends Initializing; the next
iteration, at 24 000 without client, finds and leaves the phase Ready and
changes nothing. -/
theorem stop_exactly_when_ready_witness :
    (phaseOf (loops [] (setup 0 boot)) = Phase.Initializing ∧
      phaseOf (loop { tInit := 23000, client := none, tCtl := 23000 }
        (loops [] (setup 0 boot))) = Phase.Ready) ∧
    loop { tInit := 24000, client := none, tCtl := 24000 }
        (loops [{ tInit := 23000, client := none, tCtl := 23000 }] (setup 0 boot))
      = loops [{ tInit := 23000, client := none, tCtl := 23000 }] (setup 0 boot) :=
  ⟨⟨by decide,
    ((stop_exactly_when_ready 0 [] { tInit := 23000, client := none, tCtl := 23000 }).2.2.2
      (by decide) (by decide)).2⟩,
   (stop_exactly_when_ready 0 [{ tInit := 23000, client := none, tCtl := 23000 }]
      { tInit := 24000, client := none, tCtl := 24000 }).2.2.1 (by decide) (by decide)⟩

/-- C15, as the code has it: evaluating the sequencer twice at the same clock
value `now` leaves the same phase and the same phase clocks as evaluating it
once, for the initialisation block of `loop` and for `controlLinearActuator`,
in every state.  The control lines are the same too, except on the call of
`controlLinearActuator` that ends ClosingRetract (`extending` true, elapsed at
least 20 000 ms): there one evaluation leaves IN1=0, IN2=1 and two
evaluations leave IN1=1, IN2=0. -/
theorem tick_twice_same_phase (now : Nat) (s : Ctl) :
    (phaseOf (initTick now (initTick now s)) = phaseOf (initTick now s) ∧
      (initTick now (initTick now s)).initStartTime = (initTick now s).initStartTime ∧
      (initTick now (initTick now s)).doorCloseStartTime
        = (initTick now s).doorCloseStartTime ∧
      lines (initTick now (initTick now s)) = lines (initTick now s)) ∧
    (phaseOf (controlLinearActuator now (controlLinearActuator now s))
        = phaseOf (controlLinearActuator now s) ∧
      (controlLinearActuator now (controlLinearActuator now s)).doorCloseStartTime
        = (controlLinearActuator now s).doorCloseStartTime) ∧
    (¬ (s.isDoorClosing = true ∧ s.extending = true ∧
          20000 ≤ ulSub now s.doorCloseStartTime) →
      lines (controlLinearActuator now (controlLinearActuator now s))
        = lines (controlLinearActuator now s)) ∧
    (s.isDoorClosing = true ∧ s.extending = true ∧
        20000 ≤ ulSub now s.doorCloseStartTime →
      lines (controlLinearActuator now s) = (LOW, HIGH) ∧
      lines (controlLinearActuator now (controlLinearActuator now s)) = (HIGH, LOW)) := by
  have z : ulSub now now = 0 := ulSub_self now
  refine ⟨?_, ?_, ?_, ?_⟩
  · by_cases hge : 23000 ≤ ulSub now s.initStartTime <;>
      cases hi : s.isInitialized <;>
      simp [initTick, phaseOf, lines, digitalWrite, hi, hge]
  · by_cases hge : 20000 ≤ ulSub now s.doorCloseStartTime <;>
      cases hc : s.isDoorClosing <;> cases he : s.extending <;>
      simp [controlLinearActuator, phaseOf, digitalWrite, hc, he, hge, z]
  · by_cases hge : 20000 ≤ ulSub now s.doorCloseStartTime <;>
      cases hc : s.isDoorClosing <;> cases he : s.extending <;>
      simp [controlLinearActuator, lines, digitalWrite, hc, he, hge, z]
  · rintro ⟨hc, he, hge⟩
    simp [controlLinearActuator, lines, digitalWrite, hc, he, hge, z]

/-- Witness of C15 (as the code has it): 6 000 ms into ClosingRetract two
calls at the same clock value leave the lines as one call does. -/
theorem tick_twice_same_phase_witness :
    ¬ (retractState.isDoorClosing = true ∧ retractState.extending = true ∧
        20000 ≤ ulSub 30000 retractState.doorCloseStartTime) ∧
    lines (controlLinearActuator 30000 (controlLinearActuator 30000 retractState))
      = lines (controlLinearActuator 30000 retractState) :=
  ⟨by decide, (tick_twice_same_phase 30000 retractState).2.2.1 (by decide)⟩

/-- C15 as stated fails: in the reachable ClosingRetract state with the clock
at 24 000, one call of `controlLinearActuator` at 44 000 leaves the lines at
IN1=0, IN2=1 and two calls at 44 000 leave them at IN1=1, IN2=0. -/
theorem tick_twice_same_phase_counterexample :
    phaseOf retractState = Phase.ClosingRetract ∧
    lines (controlLinearActuator 44000 retractState) = (LOW, HIGH) ∧
    lines (controlLinearActuator 44000 (controlLinearActuator 44000 retractState))
      = (HIGH, LOW) ∧
    lines (controlLinearActuator 44000 (controlLinearActuator 44000 retractState))
      ≠ lines (controlLinearActuator 44000 retractState) := by
  decide

/-- C16: the elapsed-time computation tolerates one clock wraparound.  For
every phase start value `start` and every true elapsed duration
`d < 2^32`, the unsigned difference of the clock value
`(start + d) mod 2^32` and `start` is `d`; hence the tests
`elapsed >= 23000` and `elapsed >= 20000` of the code decide as on an
unbounded clock: the initialisation block of `loop` finishes exactly when
`23000 ≤ d`, and `controlLinearActuator` ends ClosingRetract, respectively
ClosingReturn, exactly when `20000 ≤ d`. -/
theorem elapsed_tolerates_wraparound (d : Nat) (s : Ctl) (hd : d < ULONG_MOD) :
    (∀ start, ulSub ((start + d) % ULONG_MOD) start = d) ∧
    (∀ start, 23000 ≤ ulSub ((start + d) % ULONG_MOD) start ↔ 23000 ≤ d) ∧
    (∀ start, 20000 ≤ ulSub ((start + d) % ULONG_MOD) start ↔ 20000 ≤ d) ∧
    (s.isInitialized = false →
      ((initTick ((s.initStartTime + d) % ULONG_MOD) s).isInitialized = true ↔
        23000 ≤ d)) ∧
    (s.isDoorClosing = true → s.extending = true →
      ((controlLinearActuator ((s.doorCloseStartTime + d) % ULONG_MOD) s).extending = false ↔
        20000 ≤ d)) ∧
    (s.isDoorClosing = true → s.extending = false →
      ((controlLinearActuator ((s.doorCloseStartTime + d) % ULONG_MOD) s).isDoorClosing
          = false ↔ 20000 ≤ d)) := by
  have e : ∀ start, ulSub ((start + d) % ULONG_MOD) start = d :=
    fun start => ulSub_wrapped start d hd
  refine ⟨e, fun start => by rw [e], fun start => by rw [e], ?_, ?_, ?_⟩
  · intro hi
    by_cases hge : 23000 ≤ d <;> simp [initTick, hi, e, hge, digitalWrite]
  · intro hc he
    by_cases hge : 20000 ≤ d <;> simp [controlLinearActuator, hc, he, e, hge, digitalWrite]
  · intro hc he
    by_cases hge : 20000 ≤ d <;> simp [controlLinearActuator, hc, he, e, hge, digitalWrite]

/-- Witness of C16: initialisation started 6 ms before the clock wraps; after
23 000 ms the clock reads 22 994, below the start value, and the block
finishes. -/
theorem elapsed_tolerates_wraparound_witness :
    23000 < ULONG_MOD ∧
    (nearWrap + 23000) % ULONG_MOD = 22994 ∧
    ulSub 22994 nearWrap = 23000 ∧
    ((initTick ((wrapInitState.initStartTime + 23000) % ULONG_MOD)
        wrapInitState).isInitialized = true ↔ 23000 ≤ 23000) :=
  ⟨by decide, by decide, by decide,
   (elapsed_tolerates_wraparound 23000 wrapInitState (by decide)).2.2.2.1 rfl⟩

/-- C17: exactly one phase is active in every reachable state.  In every
state reached from `setup` by ticks, `startDoorClosing` calls, clients and
iterations of `loop`, the flags `(isInitialized, isDoorClosing, extending)`
are one of four combinations: `(false, false, false)` Initializing,
`(true, false, false)` Ready, `(true, true, true)` ClosingRetract,
`(true, true, false)` ClosingReturn; `isDoorClosing` implies `isInitialized`
and `extending` implies `isDoorClosing`.  All four combinations are
reached. -/
theorem flags_one_of_four (s : Ctl) (h : Reachable s) :
    (flags s = (false, false, false) ∨ flags s = (true, false, false) ∨
      flags s = (true, true, true) ∨ flags s = (true, true, false)) ∧
    (flags s = (false, false, false) ↔ phaseOf s = Phase.Initializing) ∧
    (flags s = (true, false, false) ↔ phaseOf s = Phase.Ready) ∧
    (flags s = (true, true, true) ↔ phaseOf s = Phase.ClosingRetract) ∧
    (flags s = (true, true, false) ↔ phaseOf s = Phase.ClosingReturn) ∧
    (s.isDoorClosing = true → s.isInitialized = true) ∧
    (s.extending = true → s.isDoorClosing = true) ∧
    (flags initState = (false, false, false) ∧ flags readyState = (true, false, false) ∧
      flags retractState = (true, true, true) ∧ flags returnState = (true, true, false)) := by
  obtain ⟨f1, f2⟩ := reachable_flagsOk s h
  refine ⟨?_, ?_, ?_, ?_, ?_, f1, f2, by decide⟩ <;>
    cases hi : s.isInitialized <;> cases hc : s.isDoorClosing <;>
    cases he : s.extending <;> simp_all [flags, phaseOf]

/-- Witness of C17: the state 20 000 ms into a closing cycle, reached by
`setup`, a tick of the initialisation block, a client, and a tick. -/
theorem flags_one_of_four_witness :
    Reachable (run [Op.init 23000, Op.request openRequest, Op.control 44000] initState) ∧
    flags (run [Op.init 23000, Op.request openRequest, Op.control 44000] initState)
      = (true, true, false) ∧
    (flags (run [Op.init 23000, Op.request openRequest, Op.control 44000] initState)
        = (true, true, false) ↔
      phaseOf (run [Op.init 23000, Op.request openRequest, Op.control 44000] initState)
        = Phase.ClosingReturn) :=
  ⟨⟨0, [Op.init 23000, Op.request openRequest, Op.control 44000], rfl⟩, by decide,
   (flags_one_of_four _
      ⟨0, [Op.init 23000, Op.request openRequest, Op.control 44000], rfl⟩).2.2.2.2.1⟩

/-- C18: the open trigger is a substring match.  For every sequence of
characters without newline, handled one at a time from an empty `currentLine`
(at any clock values), `startDoorClosing` is called at least once if and only
if the sequence with all carriage returns removed contains `GET /open` as a
contiguous substring; this is so because the `endsWith` test runs after every
character, that is on the carriage-return-free part of every non-empty initial
part of the sequence.  The handler does to the state what its calls of
`startDoorClosing` do. -/
theorem open_trigger_is_substring_match (chars : List (Nat × Char)) (s : Ctl)
    (h : ∀ p ∈ chars, p.2 ≠ '\n') :
    (openCallTimes chars [] ≠ [] ↔
      List.IsInfix openToken (withoutCR (chars.map Prod.snd))) ∧
    (openCallTimes chars [] ≠ [] ↔
      ∃ t1 t2, chars.map Prod.snd = t1 ++ t2 ∧ t1 ≠ [] ∧
        endsWith (withoutCR t1) openToken = true) ∧
    serveClient chars [] s = startCalls (openCallTimes chars []) s := by
  have h1 := openCallTimes_ne_nil_iff chars [] h
  have h2 := suffix_of_part_iff_infix (chars.map Prod.snd)
  simp only [List.nil_append] at h1 h2
  exact ⟨h1.trans h2, h1, serveClient_eq_startCalls chars [] s⟩

/-- Witness of C18: a line whose token is interrupted by a carriage return and
followed by more text; the call is made at clock value 24 000. -/
theorem open_trigger_is_substring_match_witness :
    (∀ p ∈ brokenOpenLine, p.2 ≠ '\n') ∧
    openCallTimes brokenOpenLine [] = [24000] ∧
    (openCallTimes brokenOpenLine [] ≠ [] ↔
      List.IsInfix openToken (withoutCR (brokenOpenLine.map Prod.snd))) :=
  ⟨by decide, by decide,
   (open_trigger_is_substring_match brokenOpenLine readyState (by decide)).1⟩

/-- C19: initialisation drives the way the return stroke does.  Every
iteration of `loop` in Initializing and every call of `controlLinearActuator`
in ClosingReturn begin with the same two writes (IN1 high, IN2 low), and every
call in ClosingRetract makes the two opposite writes (IN1 low, IN2 high).  So
the lines an initialising iteration leaves while the phase lasts are the lines
a ClosingReturn call leaves while that phase lasts, and the exact opposite of
the lines a ClosingRetract call leaves; and the iteration that ends
Initializing makes the same four writes as the call that ends a closing
cycle. -/
theorem init_direction_is_return_direction (i : LoopIn) (now1 now2 : Nat) (s u v : Ctl)
    (hs : phaseOf s = Phase.Initializing) (hu : phaseOf u = Phase.ClosingReturn)
    (hv : phaseOf v = Phase.ClosingRetract) :
    ((∃ more, (loop i s).writes = s.writes ++ [(IN1_PIN, HIGH), (IN2_PIN, LOW)] ++ more) ∧
      (∃ more, (controlLinearActuator now1 u).writes
        = u.writes ++ [(IN1_PIN, HIGH), (IN2_PIN, LOW)] ++ more) ∧
      (controlLinearActuator now2 v).writes = v.writes ++ [(IN1_PIN, LOW), (IN2_PIN, HIGH)]) ∧
    (phaseOf (loop i s) = Phase.Initializing →
      phaseOf (controlLinearActuator now1 u) = Phase.ClosingReturn →
      lines (loop i s) = lines (controlLinearActuator now1 u) ∧
      lines (controlLinearActuator now2 v) = opposite (lines (loop i s)) ∧
      lines (controlLinearActuator now2 v) = opposite (lines (controlLinearActuator now1 u))) ∧
    (phaseOf (loop i s) ≠ Phase.Initializing →
      phaseOf (controlLinearActuator now1 u) ≠ Phase.ClosingReturn →
      ∃ four, four = [(IN1_PIN, HIGH), (IN2_PIN, LOW), (IN1_PIN, LOW), (IN2_PIN, LOW)] ∧
        (loop i s).writes = s.writes ++ four ∧
        (controlLinearActuator now1 u).writes = u.writes ++ four) := by
  rw [phaseOf_eq_initializing] at hs
  rw [phaseOf_eq_return] at hu
  rw [phaseOf_eq_retract] at hv
  obtain ⟨hu1, hu2, hu3⟩ := hu
  obtain ⟨hv1, hv2, hv3⟩ := hv
  have ev : (controlLinearActuator now2 v).writes
      = v.writes ++ [(IN1_PIN, LOW), (IN2_PIN, HIGH)] ∧
      lines (controlLinearActuator now2 v) = (LOW, HIGH) := by
    by_cases hge : 20000 ≤ ulSub now2 v.doorCloseStartTime <;>
      simp [controlLinearActuator, hv2, hv3, hge, digitalWrite, lines]
  by_cases h1 : 23000 ≤ ulSub i.tInit s.initStartTime <;>
    by_cases h2 : 20000 ≤ ulSub now1 u.doorCloseStartTime
  · refine ⟨⟨⟨[(IN1_PIN, LOW), (IN2_PIN, LOW)], ?_⟩, ⟨[(IN1_PIN, LOW), (IN2_PIN, LOW)], ?_⟩,
      ev.1⟩, ?_, ?_⟩
    · simp [loop, initTick, hs, h1, digitalWrite]
    · simp [controlLinearActuator, hu2, hu3, h2, digitalWrite]
    · intro hp
      simp only [ne_eq, phaseOf_eq_initializing] at hp
      simp [loop, initTick, hs, h1, digitalWrite] at hp
    · intro _ _
      refine ⟨_, rfl, ?_, ?_⟩
      · simp [loop, initTick, hs, h1, digitalWrite]
      · simp [controlLinearActuator, hu2, hu3, h2, digitalWrite]
  · refine ⟨⟨⟨[(IN1_PIN, LOW), (IN2_PIN, LOW)], ?_⟩, ⟨[], ?_⟩, ev.1⟩, ?_, ?_⟩
    · simp [loop, initTick, hs, h1, digitalWrite]
    · simp [controlLinearActuator, hu2, hu3, h2, digitalWrite]
    · intro hp
      simp only [ne_eq, phaseOf_eq_initializing] at hp
      simp [loop, initTick, hs, h1, digitalWrite] at hp
    · intro _ hq
      simp [controlLinearActuator, phaseOf, hu1, hu2, hu3, h2, digitalWrite] at hq
  · refine ⟨⟨⟨[], ?_⟩, ⟨[(IN1_PIN, LOW), (IN2_PIN, LOW)], ?_⟩, ev.1⟩, ?_, ?_⟩
    · simp [loop, initTick, hs, h1, digitalWrite]
    · simp [controlLinearActuator, hu2, hu3, h2, digitalWrite]
    · intro _ hq
      simp [controlLinearActuator, phaseOf, hu1, hu2, hu3, h2, digitalWrite] at hq
    · intro hp
      simp only [ne_eq, phaseOf_eq_initializing] at hp
      simp [loop, initTick, hs, h1, digitalWrite] at hp
  · refine ⟨⟨⟨[], ?_⟩, ⟨[], ?_⟩, ev.1⟩, ?_, ?_⟩
    · simp [loop, initTick, hs, h1, digitalWrite]
    · simp [controlLinearActuator, hu2, hu3, h2, digitalWrite]
    · intro _ _
      rw [ev.2]
      simp [loop, initTick, controlLinearActuator, hs, h1, hu2, hu3, h2, digitalWrite,
        lines, opposite]
    · intro hp
      simp only [ne_eq, phaseOf_eq_initializing] at hp
      simp [loop, initTick, hs, h1, digitalWrite] at hp

/-- Witness of C19: the first iteration after `setup`, the call 1 ms into
ClosingReturn and the call 1 ms into ClosingRetract. -/
theorem init_direction_is_return_direction_witness :
    (phaseOf initState = Phase.Initializing ∧ phaseOf returnState = Phase.ClosingReturn ∧
      phaseOf retractState = Phase.ClosingRetract) ∧
    lines (loop { tInit := 0, client := none, tCtl := 0 } initState)
      = lines (controlLinearActuator 44001 returnState) ∧
    lines (controlLinearActuator 24001 retractState)
      = opposite (lines (loop { tInit := 0, client := none, tCtl := 0 } initState)) ∧
    lines (controlLinearActuator 24001 retractState)
      = opposite (lines (controlLinearActuator 44001 returnState)) :=
  ⟨⟨by decide, by decide, by decide⟩,
   (init_direction_is_return_direction { tInit := 0, client := none, tCtl := 0 } 44001 24001
      initState returnState retractState (by decide) (by decide) (by decide)).2.1
      (by decide) (by decide)⟩

end DoorCloser
